import Mathlib

/-!
Verification development for `sipbuild/generator/type_hints.py`: the type-hint
parser, scope resolver, substitution engine and renderer of the sip binding
generator.  The Python module is shallowly embedded below: mutable manager
state (`TypeHintManager._managed_type_hints` plus Python object identity)
becomes an explicit `MState` record threaded through every operation, with a
node-allocation counter standing in for object identity (every
`TypeHintNode(...)` construction and every `copy(...)` draws a fresh id), and
the `next` sibling field stores the id of the sibling node.  Re-entrant
parsing (`_parse` -> `_parse_node` -> `_lookup_type` -> `_copy_type_hint` ->
`_parse`) is fuelled; everything inside the parse of a single hint text is
fuel-free, well-founded on the shrinking text range.
-/

set_option maxHeartbeats 1000000

/-- The node types (`class NodeType`). -/
inductive NodeType where
  | TYPING
  | CLASS
  | ENUM
  | OTHER
deriving DecidableEq, Repr

/-- The different parse states of a type hint (`class ParseState`). -/
inductive ParseState where
  | REQUIRED
  | PARSING
  | PARSED
deriving DecidableEq, Repr

/-- Modelled from the spec: the symbol table is an external collaborator, its
entities are "specified only at their interface boundary".  The enclosing
scope of an enum is a class, a mapped type, or none; entities are identified
by a numeric id standing in for Python object identity. -/
inductive ScopeRef where
  | cls (id : Nat)
  | mt (id : Nat)
deriving DecidableEq, Repr

/-- Modelled from the spec: override-hint pair of a class or mapped type,
keyed by direction (`hint_in` / `hint_out`); each hint is kept as its text,
the identity of a `TypeHint` within one symbol table. -/
structure TypeHintsRec where
  hintIn : Option String
  hintOut : Option String
deriving DecidableEq, Repr

/-- Modelled from the spec: a class of the symbol table (simple C++ name of
its iface file, enclosing-scope class, opacity flag, optional override
hints). -/
structure WrappedClass where
  id : Nat
  ifaceBaseName : String
  scope : Option Nat
  external : Bool
  typeHints : Option TypeHintsRec
deriving DecidableEq, Repr

/-- Modelled from the spec: an enum of the symbol table (`fq_cpp_name` may be
absent for anonymous enums, hence the `Option` on the base name). -/
structure WrappedEnum where
  id : Nat
  baseName : Option String
  scope : Option ScopeRef
deriving DecidableEq, Repr

/-- Modelled from the spec: a mapped type of the symbol table. -/
structure MappedType where
  id : Nat
  cppName : Option String
  typeHints : Option TypeHintsRec
deriving DecidableEq, Repr

/-- Modelled from the spec: the query surface of the symbol table (the
`Specification` object's `enums`, `classes` and `mapped_types` lists). -/
structure SpecTable where
  enums : List WrappedEnum
  classes : List WrappedClass
  mappedTypes : List MappedType

/-- The type-dependent `definition` field of a node: a `str`, a
`WrappedClass` or a `WrappedEnum`. -/
inductive NodeDef where
  | str (s : String)
  | klass (c : WrappedClass)
  | enum (e : WrappedEnum)
deriving DecidableEq, Repr

/-- Encapsulate a node of a parsed type hint (`class TypeHintNode`).  `nid`
is the allocation id standing in for Python object identity; `next` holds
the id of the next sibling node (a reference in Python). -/
inductive TypeHintNode where
  | mk (nid : Nat) (type : NodeType) (children : Option (List TypeHintNode))
      (definition : Option NodeDef) (next : Option Nat)

/-- Allocation id of a node. -/
def TypeHintNode.nid : TypeHintNode → Nat
  | .mk n _ _ _ _ => n

/-- The type of a node. -/
def TypeHintNode.type : TypeHintNode → NodeType
  | .mk _ t _ _ _ => t

/-- The list of child nodes (`none` when the node has no brackets). -/
def TypeHintNode.children : TypeHintNode → Option (List TypeHintNode)
  | .mk _ _ c _ _ => c

/-- The type-dependent definition. -/
def TypeHintNode.definition : TypeHintNode → Option NodeDef
  | .mk _ _ _ d _ => d

/-- The next sibling node (its allocation id). -/
def TypeHintNode.next : TypeHintNode → Option Nat
  | .mk _ _ _ _ nx => nx

/-- Overwrite the `next` field of a node (the assignment
`children[-1].next = new_child` / `node.next = None`). -/
def TypeHintNode.setNext : TypeHintNode → Option Nat → TypeHintNode
  | .mk n t c d _, nx => .mk n t c d nx

/-- The child list of a node, defaulting to empty (reached only for nodes
whose `children` is a list, see `flatten_union`). -/
def TypeHintNode.childList (n : TypeHintNode) : List TypeHintNode :=
  n.children.getD []

/-- A `TypeHint` object of the specification module: its identity within one
symbol table is its text. -/
structure TypeHint where
  text : String
deriving DecidableEq, Repr

/-- Encapsulate a managed type hint (`class ManagedTypeHint`). -/
structure ManagedTypeHint where
  type_hint : TypeHint
  parse_state : ParseState := ParseState.REQUIRED
  rest_ref : Option String := none
  root : Option TypeHintNode := none

/-- The mutable manager state: the node-allocation counter (Python object
identity) and the `_managed_type_hints` mapping from hint text to managed
state. -/
structure MState where
  counter : Nat
  managed : List (String × ManagedTypeHint)

/-- The state of a manager for a freshly created symbol table. -/
def emptyMState : MState := ⟨0, []⟩

/-- Dictionary lookup `self._managed_type_hints[text]` (as an `Option`). -/
def mfind (σ : MState) (t : String) : Option ManagedTypeHint :=
  (σ.managed.find? (fun p => p.1 == t)).map (fun p => p.2)

/-- Replace-or-insert into an association list, keeping positions (a Python
dict assignment). -/
def msetList : List (String × ManagedTypeHint) → String → ManagedTypeHint →
    List (String × ManagedTypeHint)
  | [], t, m => [(t, m)]
  | (k, v) :: rest, t, m =>
      if k = t then (t, m) :: rest else (k, v) :: msetList rest t m

/-- Dictionary assignment `self._managed_type_hints[text] = m`. -/
def mset (σ : MState) (t : String) (m : ManagedTypeHint) : MState :=
  { σ with managed := msetList σ.managed t m }

/-- Draw a fresh node id: models one `TypeHintNode(...)` (or `copy(...)`)
allocation. -/
def alloc (σ : MState) : Nat × MState :=
  (σ.counter, { σ with counter := σ.counter + 1 })

/-- The error channel: `Err.user` is a raised `UserException`, `Err.keyError`
a `KeyError` on the managed-hints dictionary, `Err.typeErr` a Python
`TypeError` (reachable only on a bare `Union` with no brackets), `Err.fuel`
is exhaustion of the re-entrancy fuel (never the Python program's own
behaviour). -/
inductive Err where
  | fuel
  | typeErr
  | user (msg : String)
  | keyError (text : String)
deriving DecidableEq, Repr

/-- The types defined in the typing module (`_TYPING_MODULE`). -/
def TYPING_MODULE : List String :=
  ["Any", "NoReturn", "Tuple", "Union", "Optional", "Callable", "Type",
   "Literal", "ClassVar", "Final", "Annotated", "AnyStr", "Protocol",
   "NamedTuple", "Dict", "List", "Set", "FrozenSet", "IO", "TextIO",
   "BinaryIO", "Pattern", "Match", "Text", "Iterable", "Iterator",
   "Generator", "Mapping", "Sequence"]

/-- Indexing `text[i]` (all reachable indexing is in range; the default is an
ordinary letter). -/
def charAt (text : List Char) (i : Nat) : Char :=
  text.getD i 'x'

/-- The loop of `_strip_leading`, gas-indexed (the gas is the width of the
remaining range, so the `start < e` loop guard is still what stops the
scan). -/
def strip_leading_go : Nat → List Char → Nat → Nat → Nat
  | 0, _, start, _ => start
  | gas + 1, text, start, e =>
      if start < e ∧ charAt text start = ' ' then
        strip_leading_go gas text (start + 1) e
      else
        start

/-- Return the index of the first non-space of a string
(`TypeHintManager._strip_leading`). -/
def strip_leading (text : List Char) (start e : Nat) : Nat :=
  strip_leading_go (e - start) text start e

/-- The loop of `_strip_trailing`, gas-indexed. -/
def strip_trailing_go : Nat → List Char → Nat → Nat → Nat
  | 0, _, _, e => e
  | gas + 1, text, start, e =>
      if e > start ∧ charAt text (e - 1) = ' ' then
        strip_trailing_go gas text start (e - 1)
      else
        e

/-- Return the index after the last non-space of a string
(`TypeHintManager._strip_trailing`). -/
def strip_trailing (text : List Char) (start e : Nat) : Nat :=
  strip_trailing_go (e - start) text start e

/-- The loop of `text[start:end].find('[')`, gas-indexed. -/
def find_open_go : Nat → List Char → Nat → Nat → Option Nat
  | 0, _, _, _ => none
  | gas + 1, text, start, e =>
      if start < e then
        if charAt text start = '[' then some start
        else find_open_go gas text (start + 1) e
      else
        none

/-- The absolute index of the first opening bracket in `text[start:e]`
(`text[start:end].find('[')`, with the Python `i += start` applied). -/
def find_open (text : List Char) (start e : Nat) : Option Nat :=
  find_open_go (e - start) text start e

/-- The scan `for part_i in range(i, end)` of `_parse_node`, gas-indexed. -/
def find_split_go : Nat → List Char → Nat → Nat → Nat → Option Nat
  | 0, _, _, _, _ => none
  | gas + 1, text, i, e, depth =>
      if i < e then
        if charAt text i = '[' then find_split_go gas text (i + 1) e (depth + 1)
        else if charAt text i = ']' ∧ depth ≠ 0 then
          find_split_go gas text (i + 1) e (depth - 1)
        else if (charAt text i = ',' ∨ charAt text i = ']') ∧ depth = 0 then some i
        else find_split_go gas text (i + 1) e depth
      else
        none

/-- The index of the next comma or closing bracket at nesting depth zero,
tracking bracket depth (increment on an opening bracket, decrement on a
matching closing one). -/
def find_split (text : List Char) (i e : Nat) (depth : Nat) : Option Nat :=
  find_split_go (e - i) text i e depth

/-- The slice `text[a:b]` as a string. -/
def slice_str (text : List Char) (a b : Nat) : String :=
  String.mk ((text.drop a).take (b - a))

/-- Set the `next` link of the last node of a list (the assignment
`children[-1].next = new_child`). -/
def set_last_next : List TypeHintNode → Nat → List TypeHintNode
  | [], _ => []
  | [c], nid => [c.setNext (some nid)]
  | c :: rest, nid => c :: set_last_next rest nid

/-- Append a child to an existing list of children
(`TypeHintManager._append_child`): the sibling link of the previously last
child is set only when the list already holds more than one entry (the
source's condition is `len(children) > 1`). -/
def append_child (children : List TypeHintNode) (new_child : TypeHintNode) :
    List TypeHintNode :=
  let cs := if children.length > 1 then set_last_next children new_child.nid
            else children
  cs ++ [new_child]

/-- The union-flattening loop of `_parse_node`: children of a child that is
itself a parsed `Union` node are spliced inline. -/
def flatten_union (children : List TypeHintNode) : List TypeHintNode :=
  children.foldl
    (fun flattened child =>
      if child.type = NodeType.TYPING ∧ child.definition = some (NodeDef.str "Union") then
        child.childList.foldl append_child flattened
      else
        append_child flattened child)
    []

/-- The `UserException` text for a missing closing bracket. -/
def err_close (text : List Char) (pos : Nat) : String :=
  "type hint '" ++ String.mk text ++ "': ']' expected at position " ++ toString pos

/-- The `UserException` text for brackets on a non-typing name. -/
def err_brackets (text : List Char) : String :=
  "type hint '" ++ String.mk text ++ "': brackets are invalid"

/-- The `UserException` text for an empty top-level hint. -/
def err_empty (text : List Char) : String :=
  "type hint '" ++ String.mk text ++ "': must have non-empty brackets"

/-- `children is None or len(children) == 0` of the top-level check. -/
def children_empty : Option (List TypeHintNode) → Bool
  | none => true
  | some cs => cs.length = 0

/-- The name-resolution callback threaded into the bracket parser: it stands
for `self._lookup_type(name, out)` with the manager, the direction and the
remaining re-entrancy fuel already applied (the knot is tied in `parseF`). -/
def LookupFn : Type :=
  String → MState → Except Err (Option TypeHintNode × MState)





/-- The tail of `_parse_node` after the name span and the children are known:
the typing-module dispatch, union flattening, the brackets-are-invalid and
must-have-non-empty-brackets errors, and the delegation to the scope
resolver. -/
def parse_finish (lk : LookupFn) (text : List Char) (name_start name_end : Nat)
    (children : Option (List TypeHintNode)) (top : Bool) (σ : MState) :
    Except Err (Option TypeHintNode × MState) :=
  if name_start ≠ name_end then
    let name := slice_str text name_start name_end
    if name ∈ TYPING_MODULE then
      if name = "Union" then
        match children with
        | none => .error Err.typeErr
        | some cs =>
            if cs.length = 0 then .ok (none, σ)
            else
              let flat := flatten_union cs
              let (k, σ1) := alloc σ
              .ok (some (TypeHintNode.mk k NodeType.TYPING (some flat)
                    (some (NodeDef.str name)) none), σ1)
      else
        let (k, σ1) := alloc σ
        .ok (some (TypeHintNode.mk k NodeType.TYPING children
              (some (NodeDef.str name)) none), σ1)
    else
      if children.isSome then .error (Err.user (err_brackets text))
      else lk name σ
  else
    if top = true ∧ children_empty children = true then
      .error (Err.user (err_empty text))
    else
      let (k, σ1) := alloc σ
      .ok (some (TypeHintNode.mk k NodeType.TYPING children none none), σ1)

mutual

/-- `TypeHintManager._parse_node`: parse a single node of a type hint from
`text[s:e]`.  `top` is the Python `top_level` flag (`end is None`), `lk` is
the name-resolution callback (`self._lookup_type` with the direction and the
re-entrancy fuel applied).  `fuel` bounds the recursion depth only (the
Python recursion always terminates, the range shrinking at every level);
every theorem below supplies ample fuel. -/
def parse_node (fuel : Nat) (lk : LookupFn) (text : List Char) (s e : Nat)
    (top : Bool) (σ : MState) : Except Err (Option TypeHintNode × MState) :=
  match fuel with
  | 0 => .error Err.fuel
  | Nat.succ f =>
      match find_open text (strip_leading text s e)
          (strip_trailing text (strip_leading text s e) e) with
      | none =>
          parse_finish lk text (strip_leading text s e)
            (strip_trailing text (strip_leading text s e) e) none top σ
      | some i0 =>
          if charAt text (strip_trailing text (strip_leading text s e) e - 1) ≠ ']' then
            .error (Err.user (err_close text
              (strip_trailing text (strip_leading text s e) e)))
          else
            match parse_parts f lk text i0
                (strip_trailing text (strip_leading text s e) e) [] σ with
            | .error err => .error err
            | .ok (children, σ1) =>
                parse_finish lk text (strip_leading text s e)
                  (strip_trailing text (strip_leading text s e) i0) (some children)
                  top σ1

/-- The part-splitting loop of `_parse_node` (the `while True` over the
depth-tracking scan): `i` is the position of the opening bracket or of the
previous separator; each found part `text[i+1:p]` is parsed recursively (not
top-level) and appended when it is not `None`. -/
def parse_parts (fuel : Nat) (lk : LookupFn) (text : List Char) (i e : Nat)
    (children : List TypeHintNode) (σ : MState) :
    Except Err (List TypeHintNode × MState) :=
  match fuel with
  | 0 => .error Err.fuel
  | Nat.succ f =>
      match find_split text (i + 1) e 0 with
      | none => .ok (children, σ)
      | some p =>
          match parse_node f lk text (i + 1) p false σ with
          | .error err => .error err
          | .ok (child, σ1) =>
              let children1 := match child with
                | some c => append_child children c
                | none => children
              parse_parts f lk text p e children1 σ1

end

/-- Modelled from the spec: splitting a scoped name character by character,
a part ending at a dot or at a double colon (a lone colon is an ordinary
character, as it is for `replace` followed by a split on `::`). -/
def scoped_parts_aux : List Char → List Char → List String
  | [], acc => [String.mk acc.reverse]
  | '.' :: rest, acc => String.mk acc.reverse :: scoped_parts_aux rest []
  | ':' :: ':' :: rest, acc => String.mk acc.reverse :: scoped_parts_aux rest []
  | c :: rest, acc => scoped_parts_aux rest (c :: acc)

/-- Modelled from the spec: `ScopedName.parse(name.replace('.', '::'))`
iterated part by part — "both a dot separator and a double-colon separator
are accepted as equivalent scope delimiters" (the `ScopedName` class itself
is outside the staged sources). -/
def scoped_name_parts (name : String) : List String :=
  scoped_parts_aux name.data []

/-- `enum.scope in (scope_klass, scope_mapped_type)` of `_lookup_enum`. -/
def enum_scope_in (es : Option ScopeRef) (sk : Option WrappedClass)
    (smt : Option MappedType) : Bool :=
  es == sk.map (fun k => ScopeRef.cls k.id) || es == smt.map (fun m => ScopeRef.mt m.id)

/-- `TypeHintManager._lookup_enum`: first enum whose C/C++ base name matches
and whose scope is one of the two cursors. -/
def lookup_enum (spec : SpecTable) (name : String) (sk : Option WrappedClass)
    (smt : Option MappedType) : Option WrappedEnum :=
  spec.enums.find? (fun en => en.baseName == some name && enum_scope_in en.scope sk smt)

/-- `TypeHintManager._lookup_class`: first non-external class with the given
scope and C/C++ base name. -/
def lookup_class (spec : SpecTable) (name : String) (scope : Option WrappedClass) :
    Option WrappedClass :=
  spec.classes.find? (fun k =>
    k.scope == scope.map (fun c => c.id) && !k.external && k.ifaceBaseName == name)

/-- `TypeHintManager._lookup_mapped_type`: first mapped type with the given
C/C++ name. -/
def lookup_mapped_type (spec : SpecTable) (name : String) : Option MappedType :=
  spec.mappedTypes.find? (fun mt => mt.cppName == some name)

/-- Allocate an `Unresolved` node (`TypeHintNode(NodeType.OTHER,
definition=name)`). -/
def alloc_other (name : String) (σ : MState) : Option TypeHintNode × MState :=
  let (k, σ1) := alloc σ
  (some (TypeHintNode.mk k NodeType.OTHER none (some (NodeDef.str name)) none), σ1)

/-- Allocate an enum-reference node. -/
def alloc_enum (en : WrappedEnum) (σ : MState) : Option TypeHintNode × MState :=
  let (k, σ1) := alloc σ
  (some (TypeHintNode.mk k NodeType.ENUM none (some (NodeDef.enum en)) none), σ1)

/-- Allocate a class-reference node. -/
def alloc_class (c : WrappedClass) (σ : MState) : Option TypeHintNode × MState :=
  let (k, σ1) := alloc σ
  (some (TypeHintNode.mk k NodeType.CLASS none (some (NodeDef.klass c)) none), σ1)

/-- `type_hints.hint_out if out else type_hints.hint_in`. -/
def hint_for (th : TypeHintsRec) (out : Bool) : Option String :=
  if out then th.hintOut else th.hintIn

/-- The part loop of `TypeHintManager._lookup_type`, walking the scoped-name
parts with the two scope cursors.  `copyFn` stands for
`self._copy_type_hint(type_hint, out)` with the fuel applied; `name` is the
full original name used by the `Unresolved` fallback. -/
def lookup_parts (spec : SpecTable) (out : Bool) (name : String)
    (copyFn : String → MState → Except Err (Option TypeHintNode × MState)) :
    List String → Option WrappedClass → Option MappedType → MState →
    Except Err (Option TypeHintNode × MState)
  | [], _, _, σ => .ok (alloc_other name σ)
  | part :: rest, sk, smt, σ =>
      match lookup_enum spec part sk smt with
      | some en =>
          if rest.isEmpty then .ok (alloc_enum en σ)
          else .ok (alloc_other name σ)
      | none =>
          if smt.isSome then .ok (alloc_other name σ)
          else
            match (if sk.isNone then lookup_mapped_type spec part else none) with
            | some mt =>
                if rest.isEmpty then
                  match mt.typeHints with
                  | some th =>
                      match hint_for th out with
                      | some t =>
                          match mfind σ t with
                          | none => .error (Err.keyError t)
                          | some m =>
                              if m.parse_state = ParseState.PARSING then .ok (none, σ)
                              else copyFn t σ
                      | none => .ok (none, σ)
                  | none => .ok (none, σ)
                else lookup_parts spec out name copyFn rest sk (some mt) σ
            | none =>
                match lookup_class spec part sk with
                | none => .ok (alloc_other name σ)
                | some k =>
                    if rest.isEmpty then
                      match k.typeHints with
                      | some th =>
                          match hint_for th out with
                          | some t =>
                              match mfind σ t with
                              | none => .error (Err.keyError t)
                              | some m =>
                                  if m.parse_state = ParseState.PARSING then
                                    .ok (alloc_class k σ)
                                  else copyFn t σ
                          | none => .ok (alloc_class k σ)
                      | none => .ok (alloc_class k σ)
                    else lookup_parts spec out name copyFn rest (some k) smt σ

/-- `TypeHintManager._lookup_type`: look up a qualified Python type and
return the corresponding node. -/
def lookup_type (spec : SpecTable) (out : Bool)
    (copyFn : String → MState → Except Err (Option TypeHintNode × MState))
    (name : String) (σ : MState) : Except Err (Option TypeHintNode × MState) :=
  lookup_parts spec out name copyFn (scoped_name_parts name) none none σ

/-- Modelled from the spec: the environment a manager works in — the symbol
table and the externally supplied entity-formatter surface (`ClassFormatter`
and `EnumFormatter` reduced to their three operations each). -/
structure Env where
  spec : SpecTable
  classRestRef : WrappedClass → String
  classTypeHint : WrappedClass → Option String → Option String → String
  classFqPyName : WrappedClass → String
  enumRestRef : WrappedEnum → String
  enumTypeHint : WrappedEnum → Option String → Option String → String
  enumFqPyName : WrappedEnum → String

mutual

/-- `TypeHintManager._parse`: ensure the managed hint for text `t` has been
parsed, guarded by the tri-state marker.  The fuel bounds the recursion
depth; it is also threaded into the name-resolution callback handed to
`parse_node` (the closure is `mk_lookup f env out`, defined after this
block). -/
def parseF (fuel : Nat) (env : Env) (out : Bool) (t : String) (σ : MState) :
    Except Err MState :=
  match fuel with
  | 0 => .error Err.fuel
  | Nat.succ f =>
      match mfind σ t with
      | none => .error (Err.keyError t)
      | some m =>
          if m.parse_state = ParseState.REQUIRED then
            match parse_node f
                (fun nm σσ => lookup_type env.spec out
                  (fun tt σt => copy_type_hint f env out tt σt) nm σσ)
                t.data 0 t.length true
                (mset σ t { m with parse_state := ParseState.PARSING }) with
            | .error err => .error err
            | .ok (root, σ2) =>
                match mfind σ2 t with
                | none => .error (Err.keyError t)
                | some m2 =>
                    .ok (mset σ2 t
                      { m2 with parse_state := ParseState.PARSED, root := root })
          else .ok σ

/-- `TypeHintManager._copy_type_hint`: parse the hint if needed, then return
a `copy(...)` of its root with the sibling link cleared (a fresh object id,
all other fields — the children list included — taken as they are). -/
def copy_type_hint (fuel : Nat) (env : Env) (out : Bool) (t : String) (σ : MState) :
    Except Err (Option TypeHintNode × MState) :=
  match fuel with
  | 0 => .error Err.fuel
  | Nat.succ f =>
      match mfind σ t with
      | none => .error (Err.keyError t)
      | some _ =>
          match parseF f env out t σ with
          | .error err => .error err
          | .ok σ1 =>
              match mfind σ1 t with
              | none => .error (Err.keyError t)
              | some m =>
                  match m.root with
                  | none => .ok (none, σ1)
                  | some root =>
                      let (k, σ2) := alloc σ1
                      .ok (some (TypeHintNode.mk k root.type root.children
                            root.definition none), σ2)

end

/-- The name-resolution callback a parse at fuel `f + 1` hands to
`parse_node`: `self._lookup_type(name, out)` with `self._copy_type_hint`
closed over the remaining fuel (definitionally the closure `parseF`
builds). -/
def mk_lookup (f : Nat) (env : Env) (out : Bool) : LookupFn :=
  fun nm σσ => lookup_type env.spec out
    (fun tt σt => copy_type_hint f env out tt σt) nm σσ

/-- `TypeHintManager._any_object`. -/
def any_object (pep484 : Bool) : String :=
  if pep484 then "typing.Any" else "object"

/-- `TypeHintManager._maybe_any_object`. -/
def maybe_any_object (hint : String) (pep484 : Bool) : String :=
  if hint ≠ "Any" then hint else any_object pep484

mutual

/-- `TypeHintManager._render_node`: render a single node in one of the three
modes (`pep484`, `rest_ref`, or plain qualified). -/
def render_node (env : Env) (pep484 rr : Bool) (module defined : Option String) :
    TypeHintNode → String
  | TypeHintNode.mk _ ty ch df _ =>
      match ty with
      | NodeType.TYPING =>
          let s := match df with
            | some (NodeDef.str d) => if pep484 then "typing." ++ d else d
            | _ => ""
          (match ch with
           | none => s
           | some cs =>
               s ++ "[" ++ String.intercalate ", "
                 (render_list env pep484 rr module defined cs) ++ "]")
      | NodeType.CLASS =>
          match df with
          | some (NodeDef.klass k) =>
              if rr then env.classRestRef k
              else if pep484 then env.classTypeHint k module defined
              else env.classFqPyName k
          | _ => ""
      | NodeType.ENUM =>
          match df with
          | some (NodeDef.enum en) =>
              if rr then env.enumRestRef en
              else if pep484 then env.enumTypeHint en module defined
              else env.enumFqPyName en
          | _ => ""
      | NodeType.OTHER =>
          match df with
          | some (NodeDef.str d) => maybe_any_object d pep484
          | _ => ""

/-- The child renderings, in order (the list comprehension of
`_render_node`). -/
def render_list (env : Env) (pep484 rr : Bool) (module defined : Option String) :
    List TypeHintNode → List String
  | [] => []
  | c :: cs => render_node env pep484 rr module defined c
      :: render_list env pep484 rr module defined cs

end

/-- `TypeHintManager._render`: parse if needed, then render the root node, or
fall back to the raw hint text (with the Any substitution) when no tree was
produced. -/
def renderF (fuel : Nat) (env : Env) (out pep484 rr : Bool)
    (module defined : Option String) (t : String) (σ : MState) :
    Except Err (String × MState) :=
  match parseF fuel env out t σ with
  | .error err => .error err
  | .ok σ1 =>
      match mfind σ1 t with
      | none => .error (Err.keyError t)
      | some m =>
          match m.root with
          | some root => .ok (render_node env pep484 rr module defined root, σ1)
          | none => .ok (maybe_any_object t pep484, σ1)

/-- `TypeHintManager.rest_ref`: return the reST rendering, computing and
caching it on first request. -/
def rest_ref (fuel : Nat) (env : Env) (out : Bool) (t : String) (σ : MState) :
    Except Err (String × MState) :=
  match mfind σ t with
  | none => .error (Err.keyError t)
  | some m =>
      match m.rest_ref with
      | some r => .ok (r, σ)
      | none =>
          match renderF fuel env out false true none none t σ with
          | .error err => .error err
          | .ok (s, σ1) =>
              match mfind σ1 t with
              | none => .error (Err.keyError t)
              | some m1 => .ok (s, mset σ1 t { m1 with rest_ref := some s })

/-- `TypeHintManager.get_type_hint`: return a unique (to the specification)
`TypeHint` object for the text of a hint, creating the managed state on
first request. -/
def get_type_hint (t : String) (σ : MState) : TypeHint × MState :=
  match mfind σ t with
  | some m => (m.type_hint, σ)
  | none =>
      let m : ManagedTypeHint := { type_hint := ⟨t⟩ }
      (⟨t⟩, mset σ t m)

/-- A key just assigned is found (Python dict semantics). -/
theorem mfind_mset_self (σ : MState) (t : String) (m : ManagedTypeHint) :
    mfind (mset σ t m) t = some m := by
  suffices h : ∀ l : List (String × ManagedTypeHint),
      ((msetList l t m).find? (fun p => p.1 == t)).map (fun p => p.2) = some m by
    exact h σ.managed
  intro l
  induction l with
  | nil => simp [msetList, List.find?]
  | cons kv rest ih =>
      obtain ⟨k, v⟩ := kv
      by_cases hk : k = t
      · subst hk
        simp [msetList, List.find?]
      · simp only [msetList, if_neg hk, List.find?]
        have hbeq : (k == t) = false := by
          simp [hk]
        simp [hbeq, ih]

/-- Assigning one key leaves the others unchanged. -/
theorem mfind_mset_other (σ : MState) (t u : String) (m : ManagedTypeHint)
    (h : u ≠ t) : mfind (mset σ t m) u = mfind σ u := by
  suffices hs : ∀ l : List (String × ManagedTypeHint),
      ((msetList l t m).find? (fun p => p.1 == u)).map (fun p => p.2)
        = (l.find? (fun p => p.1 == u)).map (fun p => p.2) by
    exact hs σ.managed
  intro l
  induction l with
  | nil =>
      have hbeq : (t == u) = false := by
        simp
        exact fun hh => h hh.symm
      simp [msetList, List.find?, hbeq]
  | cons kv rest ih =>
      obtain ⟨k, v⟩ := kv
      by_cases hk : k = t
      · subst hk
        have hbeq : (k == u) = false := by
          simp
          exact fun hh => h hh.symm
        simp [msetList, List.find?, hbeq]
      · simp only [msetList, if_neg hk, List.find?]
        by_cases hku : (k == u)
        · simp [hku]
        · simp only [Bool.not_eq_true] at hku
          simp [hku, ih]

/-- Evaluation rule for `parse_node` when the trimmed span holds no opening
bracket. -/
theorem parse_node_step_none (f : Nat) (lk : LookupFn) (text : List Char)
    (s e : Nat) (top : Bool) (σ : MState)
    (h : find_open text (strip_leading text s e)
        (strip_trailing text (strip_leading text s e) e) = none) :
    parse_node (f + 1) lk text s e top σ
      = parse_finish lk text (strip_leading text s e)
          (strip_trailing text (strip_leading text s e) e) none top σ := by
  simp only [parse_node, h]

/-- Evaluation rule for `parse_node` when a bracket opens but the span does
not end in a closing bracket. -/
theorem parse_node_step_close (f : Nat) (lk : LookupFn) (text : List Char)
    (s e : Nat) (top : Bool) (σ : MState) (i0 : Nat)
    (h : find_open text (strip_leading text s e)
        (strip_trailing text (strip_leading text s e) e) = some i0)
    (hc : charAt text (strip_trailing text (strip_leading text s e) e - 1) ≠ ']') :
    parse_node (f + 1) lk text s e top σ
      = .error (Err.user (err_close text
          (strip_trailing text (strip_leading text s e) e))) := by
  simp only [parse_node, h, if_pos hc]

/-- Evaluation rule for `parse_node` when the bracketed parts parse. -/
theorem parse_node_step_ok (f : Nat) (lk : LookupFn) (text : List Char)
    (s e : Nat) (top : Bool) (σ : MState) (i0 : Nat)
    (children : List TypeHintNode) (σ1 : MState)
    (h : find_open text (strip_leading text s e)
        (strip_trailing text (strip_leading text s e) e) = some i0)
    (hc : charAt text (strip_trailing text (strip_leading text s e) e - 1) = ']')
    (hp : parse_parts f lk text i0
        (strip_trailing text (strip_leading text s e) e) [] σ = .ok (children, σ1)) :
    parse_node (f + 1) lk text s e top σ
      = parse_finish lk text (strip_leading text s e)
          (strip_trailing text (strip_leading text s e) i0) (some children) top σ1 := by
  have hnc : ¬ (charAt text (strip_trailing text (strip_leading text s e) e - 1) ≠ ']') := by
    simp [hc]
  simp only [parse_node, h, if_neg hnc, hp]

/-- Evaluation rule for `parse_node` when part parsing raises. -/
theorem parse_node_step_err (f : Nat) (lk : LookupFn) (text : List Char)
    (s e : Nat) (top : Bool) (σ : MState) (i0 : Nat) (err : Err)
    (h : find_open text (strip_leading text s e)
        (strip_trailing text (strip_leading text s e) e) = some i0)
    (hc : charAt text (strip_trailing text (strip_leading text s e) e - 1) = ']')
    (hp : parse_parts f lk text i0
        (strip_trailing text (strip_leading text s e) e) [] σ = .error err) :
    parse_node (f + 1) lk text s e top σ = .error err := by
  have hnc : ¬ (charAt text (strip_trailing text (strip_leading text s e) e - 1) ≠ ']') := by
    simp [hc]
  simp only [parse_node, h, if_neg hnc, hp]

/-- Evaluation rule for `parse_parts` when no separator is left. -/
theorem parse_parts_step_none (f : Nat) (lk : LookupFn) (text : List Char)
    (i e : Nat) (children : List TypeHintNode) (σ : MState)
    (h : find_split text (i + 1) e 0 = none) :
    parse_parts (f + 1) lk text i e children σ = .ok (children, σ) := by
  simp only [parse_parts, h]

/-- Evaluation rule for `parse_parts` when the next part parses to a node. -/
theorem parse_parts_step_some (f : Nat) (lk : LookupFn) (text : List Char)
    (i e : Nat) (children : List TypeHintNode) (σ : MState) (p : Nat)
    (c : TypeHintNode) (σ1 : MState)
    (h : find_split text (i + 1) e 0 = some p)
    (hc : parse_node f lk text (i + 1) p false σ = .ok (some c, σ1)) :
    parse_parts (f + 1) lk text i e children σ
      = parse_parts f lk text p e (append_child children c) σ1 := by
  simp only [parse_parts, h, hc]

/-- Evaluation rule for `parse_parts` when the next part parses to `None`
(the child is skipped). -/
theorem parse_parts_step_skip (f : Nat) (lk : LookupFn) (text : List Char)
    (i e : Nat) (children : List TypeHintNode) (σ : MState) (p : Nat)
    (σ1 : MState)
    (h : find_split text (i + 1) e 0 = some p)
    (hc : parse_node f lk text (i + 1) p false σ = .ok (none, σ1)) :
    parse_parts (f + 1) lk text i e children σ
      = parse_parts f lk text p e children σ1 := by
  simp only [parse_parts, h, hc]

/-- Evaluation rule for `parse_parts` when the next part raises. -/
theorem parse_parts_step_err (f : Nat) (lk : LookupFn) (text : List Char)
    (i e : Nat) (children : List TypeHintNode) (σ : MState) (p : Nat) (err : Err)
    (h : find_split text (i + 1) e 0 = some p)
    (hc : parse_node f lk text (i + 1) p false σ = .error err) :
    parse_parts (f + 1) lk text i e children σ = .error err := by
  simp only [parse_parts, h, hc]

/-- Evaluation rule for `parseF` on an unregistered text (`KeyError`). -/
theorem parseF_step_key (f : Nat) (env : Env) (out : Bool) (t : String)
    (σ : MState) (h : mfind σ t = none) :
    parseF (f + 1) env out t σ = .error (Err.keyError t) := by
  simp only [parseF, h]

/-- Evaluation rule for `parseF` when the hint is not in the `REQUIRED`
state: nothing happens (the parse-once guarantee). -/
theorem parseF_step_done (f : Nat) (env : Env) (out : Bool) (t : String)
    (σ : MState) (m : ManagedTypeHint) (h : mfind σ t = some m)
    (hs : m.parse_state ≠ ParseState.REQUIRED) :
    parseF (f + 1) env out t σ = .ok σ := by
  simp only [parseF, h, if_neg hs]

/-- Evaluation rule for `parseF` on a `REQUIRED` hint whose parse succeeds:
the entry is marked `PARSING`, parsed, then marked `PARSED` with the root
stored. -/
theorem parseF_step_ok (f : Nat) (env : Env) (out : Bool) (t : String)
    (σ : MState) (m : ManagedTypeHint) (root : Option TypeHintNode)
    (σ2 : MState) (m2 : ManagedTypeHint)
    (h : mfind σ t = some m) (hs : m.parse_state = ParseState.REQUIRED)
    (hp : parse_node f (mk_lookup f env out) t.data 0 t.length true
        (mset σ t { m with parse_state := ParseState.PARSING }) = .ok (root, σ2))
    (h2 : mfind σ2 t = some m2) :
    parseF (f + 1) env out t σ
      = .ok (mset σ2 t { m2 with parse_state := ParseState.PARSED, root := root }) := by
  delta mk_lookup at hp
  simp only [parseF, h, if_pos hs, hp, h2]

/-- Evaluation rule for `parseF` on a `REQUIRED` hint whose parse raises. -/
theorem parseF_step_err (f : Nat) (env : Env) (out : Bool) (t : String)
    (σ : MState) (m : ManagedTypeHint) (err : Err)
    (h : mfind σ t = some m) (hs : m.parse_state = ParseState.REQUIRED)
    (hp : parse_node f (mk_lookup f env out) t.data 0 t.length true
        (mset σ t { m with parse_state := ParseState.PARSING }) = .error err) :
    parseF (f + 1) env out t σ = .error err := by
  delta mk_lookup at hp
  simp only [parseF, h, if_pos hs, hp]

/-- Evaluation rule for `copy_type_hint` on an unregistered text. -/
theorem copy_step_key (f : Nat) (env : Env) (out : Bool) (t : String)
    (σ : MState) (h : mfind σ t = none) :
    copy_type_hint (f + 1) env out t σ = .error (Err.keyError t) := by
  simp only [copy_type_hint, h]

/-- Evaluation rule for `copy_type_hint` when the parse raises. -/
theorem copy_step_err (f : Nat) (env : Env) (out : Bool) (t : String)
    (σ : MState) (m0 : ManagedTypeHint) (err : Err)
    (h : mfind σ t = some m0) (hp : parseF f env out t σ = .error err) :
    copy_type_hint (f + 1) env out t σ = .error err := by
  simp only [copy_type_hint, h, hp]

/-- Evaluation rule for `copy_type_hint` when the parsed hint has no tree:
the copy is `None`. -/
theorem copy_step_none (f : Nat) (env : Env) (out : Bool) (t : String)
    (σ : MState) (m0 m : ManagedTypeHint) (σ1 : MState)
    (h : mfind σ t = some m0) (hp : parseF f env out t σ = .ok σ1)
    (h1 : mfind σ1 t = some m) (hr : m.root = none) :
    copy_type_hint (f + 1) env out t σ = .ok (none, σ1) := by
  simp only [copy_type_hint, h, hp, h1, hr]

/-- Evaluation rule for `copy_type_hint` on a parsed tree: a fresh object id,
the sibling link cleared, every other field (children included) shared. -/
theorem copy_step_some (f : Nat) (env : Env) (out : Bool) (t : String)
    (σ : MState) (m0 m : ManagedTypeHint) (σ1 : MState) (root : TypeHintNode)
    (h : mfind σ t = some m0) (hp : parseF f env out t σ = .ok σ1)
    (h1 : mfind σ1 t = some m) (hr : m.root = some root) :
    copy_type_hint (f + 1) env out t σ
      = .ok (some (TypeHintNode.mk σ1.counter root.type root.children
            root.definition none), { σ1 with counter := σ1.counter + 1 }) := by
  simp only [copy_type_hint, h, hp, h1, hr, alloc]

/-- `render_list` is a `map`. -/
theorem render_list_eq_map (env : Env) (pep484 rr : Bool)
    (module defined : Option String) (cs : List TypeHintNode) :
    render_list env pep484 rr module defined cs
      = cs.map (render_node env pep484 rr module defined) := by
  induction cs with
  | nil => rfl
  | cons c rest ih =>
      rw [render_list, ih]
      rfl

/-- The single unfolding of `render_node`, with the children rendered by a
plain `map`. -/
theorem render_node_eq (env : Env) (pep484 rr : Bool)
    (module defined : Option String) (n : Nat) (ty : NodeType)
    (ch : Option (List TypeHintNode)) (df : Option NodeDef) (nx : Option Nat) :
    render_node env pep484 rr module defined (TypeHintNode.mk n ty ch df nx)
      = match ty with
        | NodeType.TYPING =>
            let s := match df with
              | some (NodeDef.str d) => if pep484 then "typing." ++ d else d
              | _ => ""
            (match ch with
             | none => s
             | some cs =>
                 s ++ "[" ++ String.intercalate ", "
                   (cs.map (render_node env pep484 rr module defined)) ++ "]")
        | NodeType.CLASS =>
            match df with
            | some (NodeDef.klass k) =>
                if rr then env.classRestRef k
                else if pep484 then env.classTypeHint k module defined
                else env.classFqPyName k
            | _ => ""
        | NodeType.ENUM =>
            match df with
            | some (NodeDef.enum en) =>
                if rr then env.enumRestRef en
                else if pep484 then env.enumTypeHint en module defined
                else env.enumFqPyName en
            | _ => ""
        | NodeType.OTHER =>
            match df with
            | some (NodeDef.str d) => maybe_any_object d pep484
            | _ => "" := by
  rw [render_node.eq_def]
  cases ty <;> cases ch <;> simp [render_list_eq_map]

/-- A trivial concrete environment: an empty symbol table and constant
formatters, used by the concrete witnesses below. -/
def envTriv : Env :=
  { spec := ⟨[], [], []⟩
    classRestRef := fun _ => "CRR"
    classTypeHint := fun _ _ _ => "CTH"
    classFqPyName := fun _ => "CFQ"
    enumRestRef := fun _ => "ERR"
    enumTypeHint := fun _ _ _ => "ETH"
    enumFqPyName := fun _ => "EFQ" }

/-- Register a hint text with the manager (`get_type_hint` for its state
effect). -/
def reg (t : String) (σ : MState) : MState :=
  (get_type_hint t σ).2

/-- The allocation counter does not alter dictionary lookups. -/
theorem mfind_bump (σ : MState) (c : Nat) (t : String) :
    mfind { σ with counter := c } t = mfind σ t := rfl

/-- The manager state after `_parse` has run on a `REQUIRED` entry `m` of
text `t`: the entry goes through `PARSING` and ends `PARSED` holding `root`,
with the allocation counter advanced to `k`. -/
def parsed_state (σ : MState) (t : String) (m : ManagedTypeHint)
    (root : Option TypeHintNode) (k : Nat) : MState :=
  mset { mset σ t ⟨m.type_hint, ParseState.PARSING, m.rest_ref, m.root⟩ with
          counter := k } t
    ⟨m.type_hint, ParseState.PARSED, m.rest_ref, root⟩

/-- Looking the hint up after its parse finds the `PARSED` entry. -/
theorem mfind_parsed_state (σ : MState) (t : String) (m : ManagedTypeHint)
    (root : Option TypeHintNode) (k : Nat) :
    mfind (parsed_state σ t m root k) t
      = some ⟨m.type_hint, ParseState.PARSED, m.rest_ref, root⟩ := by
  unfold parsed_state
  exact mfind_mset_self _ _ _

/-- Running the bracket parser on the text `Any` allocates the one
typing-module node (the scope resolver is never consulted). -/
theorem run_Any (f : Nat) (lk : LookupFn) (σ : MState) :
    parse_node (f + 1) lk "Any".data 0 3 true σ
      = .ok (some (TypeHintNode.mk σ.counter NodeType.TYPING none
            (some (NodeDef.str "Any")) none),
          { σ with counter := σ.counter + 1 }) := rfl

/-- `_parse` on a `REQUIRED` entry for the text `Any`. -/
theorem parseF_run_Any (f : Nat) (env : Env) (out : Bool) (σ : MState)
    (m : ManagedTypeHint) (h : mfind σ "Any" = some m)
    (hs : m.parse_state = ParseState.REQUIRED) :
    parseF (f + 2) env out "Any" σ
      = .ok (parsed_state σ "Any" m
          (some (TypeHintNode.mk σ.counter NodeType.TYPING none
            (some (NodeDef.str "Any")) none)) (σ.counter + 1)) := by
  exact parseF_step_ok (f + 1) env out "Any" σ m
    (some (TypeHintNode.mk σ.counter NodeType.TYPING none
      (some (NodeDef.str "Any")) none))
    { mset σ "Any" ⟨m.type_hint, ParseState.PARSING, m.rest_ref, m.root⟩ with
        counter := σ.counter + 1 }
    ⟨m.type_hint, ParseState.PARSING, m.rest_ref, m.root⟩
    h hs (run_Any f (mk_lookup (f + 1) env out) _)
    ((mfind_bump _ _ _).trans (mfind_mset_self _ _ _))

/-- Rendering the hint `Any`: the parse yields a typing-module node, so the
qualified rendering is the bare name `Any` and the annotation rendering is
`typing.Any` — the `Any`-to-`object` substitution is never consulted. -/
theorem renderF_run_Any (f : Nat) (env : Env) (out pep484 : Bool)
    (module defined : Option String) (σ : MState) (m : ManagedTypeHint)
    (h : mfind σ "Any" = some m) (hs : m.parse_state = ParseState.REQUIRED) :
    (renderF (f + 2) env out pep484 false module defined "Any" σ).map Prod.fst
      = .ok (if pep484 then "typing.Any" else "Any") := by
  unfold renderF
  rw [parseF_run_Any f env out σ m h hs]
  cases pep484 <;> simp [mfind_parsed_state, render_node_eq, Except.map]

/-- C2 (counterexample): for the hint text `Any`, qualified-mode rendering
returns the string `Any`, not `object`, contradicting the claim. -/
theorem C2_cex :
    (renderF 2 envTriv true false false none none "Any"
        (reg "Any" emptyMState)).map Prod.fst = .ok "Any"
      ∧ "Any" ≠ "object" := by
  refine ⟨?_, by decide⟩
  exact renderF_run_Any 0 envTriv true false none none (reg "Any" emptyMState)
    ⟨⟨"Any"⟩, ParseState.REQUIRED, none, none⟩ rfl rfl

/-- C2 (amended): rendering the hint whose text is exactly `Any` returns the
string `Any` in qualified mode and the string `typing.Any` in annotation
mode, for every symbol table, direction and annotation context: `Any` is a
typing-module name, so it parses to a typing node and the
`Any`-to-`object` substitution (which applies only to unresolved names and
to the no-tree fallback) is never consulted. -/
theorem C2_thm (f : Nat) (env : Env) (out : Bool)
    (module defined : Option String) (σ : MState) (m : ManagedTypeHint)
    (h : mfind σ "Any" = some m) (hs : m.parse_state = ParseState.REQUIRED) :
    (renderF (f + 2) env out false false module defined "Any" σ).map Prod.fst
        = .ok "Any"
      ∧ (renderF (f + 2) env out true false module defined "Any" σ).map Prod.fst
        = .ok "typing.Any" :=
  ⟨renderF_run_Any f env out false module defined σ m h hs,
   renderF_run_Any f env out true module defined σ m h hs⟩

/-- C2 (witness): the amended statement at a concrete manager state. -/
theorem C2_witness :
    mfind (reg "Any" emptyMState) "Any"
        = some ⟨⟨"Any"⟩, ParseState.REQUIRED, none, none⟩
      ∧ ((renderF 2 envTriv true false false none none "Any"
            (reg "Any" emptyMState)).map Prod.fst = .ok "Any"
        ∧ (renderF 2 envTriv true true false none none "Any"
            (reg "Any" emptyMState)).map Prod.fst = .ok "typing.Any") :=
  ⟨rfl, C2_thm 0 envTriv true none none (reg "Any" emptyMState)
    ⟨⟨"Any"⟩, ParseState.REQUIRED, none, none⟩ rfl rfl⟩

/-- The root the manager has stored for a hint text. -/
def root_of (σ : MState) (t : String) : Option TypeHintNode :=
  (mfind σ t).bind (fun m => m.root)

/-- The `next` links of a node's children, in child order. -/
def children_next (n : TypeHintNode) : List (Option Nat) :=
  n.childList.map (fun c => c.next)

/-- The allocation ids of a node's children, in child order. -/
def children_ids (n : TypeHintNode) : List Nat :=
  n.childList.map (fun c => c.nid)

/-- Running the bracket parser on the empty text raises the non-empty
brackets error. -/
theorem run_empty_text (f : Nat) (lk : LookupFn) (σ : MState) :
    parse_node (f + 1) lk "".data 0 0 true σ
      = .error (Err.user (err_empty "".data)) := rfl

/-- Running the bracket parser on an empty bracketed part (`text[i:i]`)
yields an anonymous childless typing node. -/
theorem run_empty_part (f : Nat) (lk : LookupFn) (text : List Char) (i : Nat)
    (σ : MState) :
    parse_node (f + 1) lk text i i false σ
      = .ok (some (TypeHintNode.mk σ.counter NodeType.TYPING none none none),
          { σ with counter := σ.counter + 1 }) := by
  have hz : i - i = 0 := by omega
  rw [parse_node_step_none]
  · unfold strip_leading strip_trailing
    rw [hz]
    simp only [strip_leading_go, strip_trailing_go, hz]
    simp [parse_finish, children_empty, alloc]
  · unfold strip_leading strip_trailing find_open
    rw [hz]
    simp only [strip_leading_go, strip_trailing_go, hz, find_open_go]

/-- Lift a pure-allocation parse of text `t` (one that only draws node ids,
leaving the managed dictionary as marked) to `_parse`. -/
theorem parseF_run_alloc (f : Nat) (env : Env) (out : Bool) (t : String)
    (σ : MState) (m : ManagedTypeHint) (root : Option TypeHintNode) (k : Nat)
    (h : mfind σ t = some m) (hs : m.parse_state = ParseState.REQUIRED)
    (hp : parse_node f (mk_lookup f env out) t.data 0 t.length true
        (mset σ t ⟨m.type_hint, ParseState.PARSING, m.rest_ref, m.root⟩)
      = .ok (root, { mset σ t ⟨m.type_hint, ParseState.PARSING, m.rest_ref, m.root⟩ with
          counter := k })) :
    parseF (f + 1) env out t σ = .ok (parsed_state σ t m root k) :=
  parseF_step_ok f env out t σ m root
    { mset σ t ⟨m.type_hint, ParseState.PARSING, m.rest_ref, m.root⟩ with counter := k }
    ⟨m.type_hint, ParseState.PARSING, m.rest_ref, m.root⟩ h hs hp
    ((mfind_bump _ _ _).trans (mfind_mset_self _ _ _))

/-- Parsing `List[int` fails at once: the trimmed span ends at 8 without a
closing bracket, and the raised diagnostic carries the full text and that
end position. -/
theorem run_ListInt (f : Nat) (lk : LookupFn) (σ : MState) :
    parse_node (f + 1) lk "List[int".data 0 8 true σ
      = .error (Err.user "type hint 'List[int': ']' expected at position 8") := rfl

/-- `_parse` on a `REQUIRED` entry for `List[int` propagates the
closing-bracket diagnostic. -/
theorem parseF_run_ListInt (f : Nat) (env : Env) (out : Bool) (σ : MState)
    (m : ManagedTypeHint) (h : mfind σ "List[int" = some m)
    (hs : m.parse_state = ParseState.REQUIRED) :
    parseF (f + 2) env out "List[int" σ
      = .error (Err.user "type hint 'List[int': ']' expected at position 8") :=
  parseF_step_err (f + 1) env out "List[int" σ m _ h hs
    (run_ListInt f (mk_lookup (f + 1) env out) _)

/-- C6 (counterexample): the diagnostic for `List[int` names position 8 (the
end of the trimmed text, where the closing bracket was expected); the
opening bracket sits at position 4, and the message nowhere holds the
character `4`, so the claim that the bracket-open position is reported is
false. -/
theorem C6_cex :
    parseF 2 envTriv true "List[int" (reg "List[int" emptyMState)
        = .error (Err.user "type hint 'List[int': ']' expected at position 8")
      ∧ charAt "List[int".data 4 = '['
      ∧ ("type hint 'List[int': ']' expected at position 8").data.contains '4' = false := by
  refine ⟨?_, by decide, by decide⟩
  exact parseF_run_ListInt 0 envTriv true (reg "List[int" emptyMState)
    ⟨⟨"List[int"⟩, ParseState.REQUIRED, none, none⟩ rfl rfl

/-- C6 (amended): parsing the malformed hint text `List[int` raises a
structural error whose diagnostic contains the full original hint text and
the position where the closing bracket was expected — the index one past the
trimmed text (8), not the position of the opening bracket. -/
theorem C6_thm (f : Nat) (env : Env) (out : Bool) (σ : MState)
    (m : ManagedTypeHint) (h : mfind σ "List[int" = some m)
    (hs : m.parse_state = ParseState.REQUIRED) :
    parseF (f + 2) env out "List[int" σ
      = .error (Err.user ("type hint '" ++ "List[int" ++ "': ']' expected at position "
          ++ toString (8 : Nat))) :=
  parseF_run_ListInt f env out σ m h hs

/-- C6 (witness): the amended statement at a concrete manager state. -/
theorem C6_witness :
    mfind (reg "List[int" emptyMState) "List[int"
        = some ⟨⟨"List[int"⟩, ParseState.REQUIRED, none, none⟩
      ∧ parseF 2 envTriv true "List[int" (reg "List[int" emptyMState)
        = .error (Err.user ("type hint '" ++ "List[int" ++ "': ']' expected at position "
            ++ toString (8 : Nat))) :=
  ⟨rfl, C6_thm 0 envTriv true (reg "List[int" emptyMState)
    ⟨⟨"List[int"⟩, ParseState.REQUIRED, none, none⟩ rfl rfl⟩

/-- A mapped type `M` with no override hints, and the environment holding
only it: the concrete symbol table behind the no-type examples. -/
def mtM : MappedType := { id := 0, cppName := some "M", typeHints := none }

/-- The environment whose symbol table holds only the mapped type `M`. -/
def envM : Env := { envTriv with spec := ⟨[], [], [mtM]⟩ }

/-- Parsing `Union[]`: the empty interior parses to one anonymous childless
node, so the union has one child and the empty-union branch is not taken. -/
theorem run_Union_empty (f : Nat) (lk : LookupFn) (σ : MState) :
    parse_node (f + 3) lk "Union[]".data 0 7 true σ
      = .ok (some (TypeHintNode.mk (σ.counter + 1) NodeType.TYPING
            (some [TypeHintNode.mk σ.counter NodeType.TYPING none none none])
            (some (NodeDef.str "Union")) none),
          { σ with counter := σ.counter + 2 }) := rfl

/-- Parsing `[]`: the same anonymous child appears under an anonymous
top-level node, so the must-have-non-empty-brackets error is not raised. -/
theorem run_brackets_empty (f : Nat) (lk : LookupFn) (σ : MState) :
    parse_node (f + 3) lk "[]".data 0 2 true σ
      = .ok (some (TypeHintNode.mk (σ.counter + 1) NodeType.TYPING
            (some [TypeHintNode.mk σ.counter NodeType.TYPING none none none])
            none none),
          { σ with counter := σ.counter + 2 }) := rfl

/-- Parsing `Union[M]` against the `envM` table: the bare mapped-type
reference resolves to `None`, the child list stays empty, and the union
parses to the no-type result without allocating a node. -/
theorem run_Union_M (f g : Nat) (out : Bool) (σ : MState) :
    parse_node (f + 3) (mk_lookup g envM out) "Union[M]".data 0 8 true σ
      = .ok (none, σ) := rfl

/-- Parsing `[M]` against the `envM` table: the lone argument vanishes, the
top level is nameless with an empty child list, and the
must-have-non-empty-brackets error is raised. -/
theorem run_M_bracket (f g : Nat) (out : Bool) (σ : MState) :
    parse_node (f + 3) (mk_lookup g envM out) "[M]".data 0 3 true σ
      = .error (Err.user "type hint '[M]': must have non-empty brackets") := rfl

/-- `_parse` on a `REQUIRED` entry for `Union[]`. -/
theorem parseF_run_Union_empty (f : Nat) (env : Env) (out : Bool) (σ : MState)
    (m : ManagedTypeHint) (h : mfind σ "Union[]" = some m)
    (hs : m.parse_state = ParseState.REQUIRED) :
    parseF (f + 4) env out "Union[]" σ
      = .ok (parsed_state σ "Union[]" m
          (some (TypeHintNode.mk (σ.counter + 1) NodeType.TYPING
            (some [TypeHintNode.mk σ.counter NodeType.TYPING none none none])
            (some (NodeDef.str "Union")) none)) (σ.counter + 2)) :=
  parseF_run_alloc (f + 3) env out "Union[]" σ m _ _ h hs
    (run_Union_empty f (mk_lookup (f + 3) env out) _)

/-- `_parse` on a `REQUIRED` entry for `[]`. -/
theorem parseF_run_brackets_empty (f : Nat) (env : Env) (out : Bool) (σ : MState)
    (m : ManagedTypeHint) (h : mfind σ "[]" = some m)
    (hs : m.parse_state = ParseState.REQUIRED) :
    parseF (f + 4) env out "[]" σ
      = .ok (parsed_state σ "[]" m
          (some (TypeHintNode.mk (σ.counter + 1) NodeType.TYPING
            (some [TypeHintNode.mk σ.counter NodeType.TYPING none none none])
            none none)) (σ.counter + 2)) :=
  parseF_run_alloc (f + 3) env out "[]" σ m _ _ h hs
    (run_brackets_empty f (mk_lookup (f + 3) env out) _)

/-- `_parse` on a `REQUIRED` entry for `Union[M]` against `envM`: the stored
root is `None` and the state is otherwise unchanged (no allocation). -/
theorem parseF_run_Union_M (f : Nat) (out : Bool) (σ : MState)
    (m : ManagedTypeHint) (h : mfind σ "Union[M]" = some m)
    (hs : m.parse_state = ParseState.REQUIRED) :
    parseF (f + 4) envM out "Union[M]" σ
      = .ok (parsed_state σ "Union[M]" m none σ.counter) :=
  parseF_run_alloc (f + 3) envM out "Union[M]" σ m none σ.counter h hs
    (run_Union_M f (f + 3) out _)

/-- `_parse` on a `REQUIRED` entry for `[M]` against `envM`. -/
theorem parseF_run_M_bracket (f : Nat) (out : Bool) (σ : MState)
    (m : ManagedTypeHint) (h : mfind σ "[M]" = some m)
    (hs : m.parse_state = ParseState.REQUIRED) :
    parseF (f + 4) envM out "[M]" σ
      = .error (Err.user "type hint '[M]': must have non-empty brackets") :=
  parseF_step_err (f + 3) envM out "[M]" σ m _ h hs (run_M_bracket f (f + 3) out _)

/-- `_parse` on a `REQUIRED` entry for the empty text. -/
theorem parseF_run_empty (f : Nat) (env : Env) (out : Bool) (σ : MState)
    (m : ManagedTypeHint) (h : mfind σ "" = some m)
    (hs : m.parse_state = ParseState.REQUIRED) :
    parseF (f + 2) env out "" σ
      = .error (Err.user "type hint '': must have non-empty brackets") :=
  parseF_step_err (f + 1) env out "" σ m _ h hs
    (run_empty_text f (mk_lookup (f + 1) env out) _)

/-- Rendering `Union[]`: the parse produced a union node with one anonymous
childless child, so rendering is bracket-aware (no raw-text fallback). -/
theorem renderF_run_Union_empty (f : Nat) (env : Env) (out pep484 : Bool)
    (module defined : Option String) (σ : MState) (m : ManagedTypeHint)
    (h : mfind σ "Union[]" = some m) (hs : m.parse_state = ParseState.REQUIRED) :
    (renderF (f + 4) env out pep484 false module defined "Union[]" σ).map Prod.fst
      = .ok (if pep484 then "typing.Union[]" else "Union[]") := by
  unfold renderF
  rw [parseF_run_Union_empty f env out σ m h hs]
  cases pep484 <;> simp [mfind_parsed_state, render_node_eq, Except.map] <;> rfl

/-- Rendering `Union[M]` against `envM`: no tree was produced, so the raw
hint text is returned in every mode. -/
theorem renderF_run_Union_M (f : Nat) (out pep484 : Bool)
    (module defined : Option String) (σ : MState) (m : ManagedTypeHint)
    (h : mfind σ "Union[M]" = some m) (hs : m.parse_state = ParseState.REQUIRED) :
    (renderF (f + 4) envM out pep484 false module defined "Union[M]" σ).map Prod.fst
      = .ok "Union[M]" := by
  unfold renderF
  rw [parseF_run_Union_M f out σ m h hs]
  simp [mfind_parsed_state, maybe_any_object, any_object, Except.map]

/-- The tree `Union[]` parses to: a union node over one anonymous childless
child (ids as allocated from a fresh manager). -/
def unionEmptyNode : TypeHintNode :=
  TypeHintNode.mk 1 NodeType.TYPING
    (some [TypeHintNode.mk 0 NodeType.TYPING none none none])
    (some (NodeDef.str "Union")) none

/-- The manager state after parsing `Union[]` from a fresh manager. -/
def unionEmptyState : MState :=
  ⟨2, [("Union[]", ⟨⟨"Union[]"⟩, ParseState.PARSED, none, some unionEmptyNode⟩)]⟩

/-- C3 (counterexample): parsing `Union[]` does not produce the no-type
result — the stored root is a union node holding one anonymous childless
child — and annotation-mode rendering is bracket-aware
(`typing.Union[]`), not the raw original text. -/
theorem C3_cex :
    parseF 4 envTriv true "Union[]" (reg "Union[]" emptyMState)
        = .ok unionEmptyState
      ∧ root_of unionEmptyState "Union[]" = some unionEmptyNode
      ∧ (renderF 4 envTriv true true false none none "Union[]"
          (reg "Union[]" emptyMState)).map Prod.fst = .ok "typing.Union[]"
      ∧ "typing.Union[]" ≠ "Union[]" := by
  refine ⟨rfl, rfl, ?_, by decide⟩
  exact renderF_run_Union_empty 0 envTriv true true none none
    (reg "Union[]" emptyMState) ⟨⟨"Union[]"⟩, ParseState.REQUIRED, none, none⟩ rfl rfl

/-- C3 (amended): `Union[]` does not parse to the no-type result: its empty
bracket interior parses to one anonymous childless child, so the hint
parses to a union node over that child and renders bracket-aware
(`Union[]` in qualified mode, `typing.Union[]` in annotation mode).  The
no-type result arises instead when every union argument itself parses to
`None` — e.g. `Union[M]` for a mapped type `M` with no override hints —
and only then does rendering fall back to the raw original text. -/
theorem C3_thm (f : Nat) (env : Env) (out : Bool) (module defined : Option String)
    (σ : MState) (m : ManagedTypeHint)
    (h : mfind σ "Union[]" = some m) (hs : m.parse_state = ParseState.REQUIRED)
    (f2 : Nat) (out2 : Bool) (σ2 : MState) (m2 : ManagedTypeHint)
    (h2 : mfind σ2 "Union[M]" = some m2) (hs2 : m2.parse_state = ParseState.REQUIRED) :
    parseF (f + 4) env out "Union[]" σ
        = .ok (parsed_state σ "Union[]" m
            (some (TypeHintNode.mk (σ.counter + 1) NodeType.TYPING
              (some [TypeHintNode.mk σ.counter NodeType.TYPING none none none])
              (some (NodeDef.str "Union")) none)) (σ.counter + 2))
      ∧ (renderF (f + 4) env out false false module defined "Union[]" σ).map Prod.fst
          = .ok "Union[]"
      ∧ (renderF (f + 4) env out true false module defined "Union[]" σ).map Prod.fst
          = .ok "typing.Union[]"
      ∧ parseF (f2 + 4) envM out2 "Union[M]" σ2
          = .ok (parsed_state σ2 "Union[M]" m2 none σ2.counter)
      ∧ (renderF (f2 + 4) envM out2 true false module defined "Union[M]" σ2).map Prod.fst
          = .ok "Union[M]" :=
  ⟨parseF_run_Union_empty f env out σ m h hs,
   renderF_run_Union_empty f env out false module defined σ m h hs,
   renderF_run_Union_empty f env out true module defined σ m h hs,
   parseF_run_Union_M f2 out2 σ2 m2 h2 hs2,
   renderF_run_Union_M f2 out2 true module defined σ2 m2 h2 hs2⟩

/-- C3 (witness): the amended statement at concrete manager states. -/
theorem C3_witness :
    mfind (reg "Union[]" emptyMState) "Union[]"
        = some ⟨⟨"Union[]"⟩, ParseState.REQUIRED, none, none⟩
      ∧ mfind (reg "Union[M]" emptyMState) "Union[M]"
        = some ⟨⟨"Union[M]"⟩, ParseState.REQUIRED, none, none⟩
      ∧ (parseF 4 envTriv true "Union[]" (reg "Union[]" emptyMState)
          = .ok (parsed_state (reg "Union[]" emptyMState) "Union[]"
              ⟨⟨"Union[]"⟩, ParseState.REQUIRED, none, none⟩
              (some (TypeHintNode.mk 1 NodeType.TYPING
                (some [TypeHintNode.mk 0 NodeType.TYPING none none none])
                (some (NodeDef.str "Union")) none)) 2)
        ∧ (renderF 4 envTriv true false false none none "Union[]"
            (reg "Union[]" emptyMState)).map Prod.fst = .ok "Union[]"
        ∧ (renderF 4 envTriv true true false none none "Union[]"
            (reg "Union[]" emptyMState)).map Prod.fst = .ok "typing.Union[]"
        ∧ parseF 4 envM false "Union[M]" (reg "Union[M]" emptyMState)
          = .ok (parsed_state (reg "Union[M]" emptyMState) "Union[M]"
              ⟨⟨"Union[M]"⟩, ParseState.REQUIRED, none, none⟩ none 0)
        ∧ (renderF 4 envM false true false none none "Union[M]"
            (reg "Union[M]" emptyMState)).map Prod.fst = .ok "Union[M]") :=
  ⟨rfl, rfl, C3_thm 0 envTriv true none none (reg "Union[]" emptyMState)
    ⟨⟨"Union[]"⟩, ParseState.REQUIRED, none, none⟩ rfl rfl
    0 false (reg "Union[M]" emptyMState)
    ⟨⟨"Union[M]"⟩, ParseState.REQUIRED, none, none⟩ rfl rfl⟩

/-- The manager state after parsing `[]` from a fresh manager. -/
def bracketsState : MState :=
  ⟨2, [("[]", ⟨⟨"[]"⟩, ParseState.PARSED, none,
    some (TypeHintNode.mk 1 NodeType.TYPING
      (some [TypeHintNode.mk 0 NodeType.TYPING none none none]) none none)⟩)]⟩

/-- C7 (counterexample): the top-level hint text `[]` parses successfully —
its empty interior contributes one anonymous childless child, so the
must-have-non-empty-brackets error is not raised, contradicting the
claim. -/
theorem C7_cex :
    parseF 4 envTriv true "[]" (reg "[]" emptyMState) = .ok bracketsState
      ∧ (root_of bracketsState "[]").isSome = true := by
  exact ⟨rfl, rfl⟩

/-- C7 (amended): the must-have-non-empty-brackets error is raised at top
level exactly when there is no name and the (possibly absent) child list is
empty: the empty text fails, and `[M]` fails because its only argument — a
bare mapped type without override hints — parses to `None`, leaving the
child list empty.  The literal `[]`, however, succeeds: its empty bracket
interior parses to one anonymous childless child, so the child list is not
empty. -/
theorem C7_thm (f : Nat) (env : Env) (out : Bool) (σ : MState)
    (m : ManagedTypeHint) (h : mfind σ "[]" = some m)
    (hs : m.parse_state = ParseState.REQUIRED)
    (f2 : Nat) (env2 : Env) (out2 : Bool) (σ2 : MState) (m2 : ManagedTypeHint)
    (h2 : mfind σ2 "" = some m2) (hs2 : m2.parse_state = ParseState.REQUIRED)
    (f3 : Nat) (out3 : Bool) (σ3 : MState) (m3 : ManagedTypeHint)
    (h3 : mfind σ3 "[M]" = some m3) (hs3 : m3.parse_state = ParseState.REQUIRED) :
    parseF (f + 4) env out "[]" σ
        = .ok (parsed_state σ "[]" m
            (some (TypeHintNode.mk (σ.counter + 1) NodeType.TYPING
              (some [TypeHintNode.mk σ.counter NodeType.TYPING none none none])
              none none)) (σ.counter + 2))
      ∧ parseF (f2 + 2) env2 out2 "" σ2
          = .error (Err.user "type hint '': must have non-empty brackets")
      ∧ parseF (f3 + 4) envM out3 "[M]" σ3
          = .error (Err.user "type hint '[M]': must have non-empty brackets") :=
  ⟨parseF_run_brackets_empty f env out σ m h hs,
   parseF_run_empty f2 env2 out2 σ2 m2 h2 hs2,
   parseF_run_M_bracket f3 out3 σ3 m3 h3 hs3⟩

/-- C7 (witness): the amended statement at concrete manager states. -/
theorem C7_witness :
    mfind (reg "[]" emptyMState) "[]"
        = some ⟨⟨"[]"⟩, ParseState.REQUIRED, none, none⟩
      ∧ mfind (reg "" emptyMState) "" = some ⟨⟨""⟩, ParseState.REQUIRED, none, none⟩
      ∧ mfind (reg "[M]" emptyMState) "[M]"
        = some ⟨⟨"[M]"⟩, ParseState.REQUIRED, none, none⟩
      ∧ (parseF 4 envTriv true "[]" (reg "[]" emptyMState)
          = .ok (parsed_state (reg "[]" emptyMState) "[]"
              ⟨⟨"[]"⟩, ParseState.REQUIRED, none, none⟩
              (some (TypeHintNode.mk 1 NodeType.TYPING
                (some [TypeHintNode.mk 0 NodeType.TYPING none none none])
                none none)) 2)
        ∧ parseF 2 envTriv false "" (reg "" emptyMState)
          = .error (Err.user "type hint '': must have non-empty brackets")
        ∧ parseF 4 envM true "[M]" (reg "[M]" emptyMState)
          = .error (Err.user "type hint '[M]': must have non-empty brackets")) :=
  ⟨rfl, rfl, rfl, C7_thm 0 envTriv true (reg "[]" emptyMState)
    ⟨⟨"[]"⟩, ParseState.REQUIRED, none, none⟩ rfl rfl
    0 envTriv false (reg "" emptyMState)
    ⟨⟨""⟩, ParseState.REQUIRED, none, none⟩ rfl rfl
    0 true (reg "[M]" emptyMState)
    ⟨⟨"[M]"⟩, ParseState.REQUIRED, none, none⟩ rfl rfl⟩

/-- C8: parsing `Tuple[int,str]` yields a Generic node with two ordered
children (ids 0 and 1), yet both next-sibling links are `none` — the first
child is never linked to the second, because `_append_child` links the
previous child only once the list already holds more than one entry, so the
link is skipped exactly when the second child arrives.  The sibling relation
required by the spec, `[some 1, none]`, differs from what parsing
produces. -/
theorem C8_thm :
    ((parseF 6 envTriv true "Tuple[int,str]" (reg "Tuple[int,str]" emptyMState)).map
        (fun σ => (root_of σ "Tuple[int,str]").map
          (fun n => (children_ids n, children_next n))))
      = .ok (some ([0, 1], [none, none]))
      ∧ ([none, none] : List (Option Nat)) ≠ [some 1, none] := by
  exact ⟨rfl, by decide⟩

/-- The parsed argument node of `List[int]` (an unresolved `int`). -/
def intNode9 : TypeHintNode :=
  TypeHintNode.mk 0 NodeType.OTHER none (some (NodeDef.str "int")) none

/-- The parsed root of `List[int]`. -/
def R9 : TypeHintNode :=
  TypeHintNode.mk 1 NodeType.TYPING (some [intNode9]) (some (NodeDef.str "List")) none

/-- The manager state after parsing `List[int]` from a fresh manager. -/
def σ9 : MState :=
  ⟨2, [("List[int]", ⟨⟨"List[int]"⟩, ParseState.PARSED, none, some R9⟩)]⟩

/-- C9 (counterexample): copying the parsed hint `List[int]` returns a node
with a fresh object id (2, distinct from the root's 1) and a cleared sibling
link, but its children field is the very list `[intNode9]` of the source
root — the descendant node with id 0 is shared between the two trees, so
the copy is shallow, contradicting the claim that no mutable node (children
sequence and descendants included) is shared. -/
theorem C9_cex :
    parseF 4 envTriv true "List[int]" (reg "List[int]" emptyMState) = .ok σ9
      ∧ copy_type_hint 5 envTriv true "List[int]" σ9
        = .ok (some (TypeHintNode.mk 2 NodeType.TYPING (some [intNode9])
            (some (NodeDef.str "List")) none), ⟨3, σ9.managed⟩)
      ∧ R9.children = some [intNode9]
      ∧ (2 : Nat) ≠ 1 := by
  exact ⟨rfl, rfl, rfl, by decide⟩

/-- C9 (amended): substituting an override hint returns a shallow copy of
its root: a node with a fresh object id and the sibling link cleared, whose
type, definition and — crucially — children field are taken from the source
root unchanged, so the children sequence and every descendant node remain
shared with the source hint's tree (`copy.copy` copies only the root
object). -/
theorem C9_thm (f : Nat) (env : Env) (out : Bool) (t : String) (σ : MState)
    (m : ManagedTypeHint) (root : TypeHintNode)
    (h : mfind σ t = some m) (hs : m.parse_state ≠ ParseState.REQUIRED)
    (hr : m.root = some root) :
    copy_type_hint (f + 2) env out t σ
      = .ok (some (TypeHintNode.mk σ.counter root.type root.children
            root.definition none), { σ with counter := σ.counter + 1 }) :=
  copy_step_some (f + 1) env out t σ m m σ root h
    (parseF_step_done f env out t σ m h hs) h hr

/-- C9 (witness): the amended statement at the parsed `List[int]` state. -/
theorem C9_witness :
    mfind σ9 "List[int]"
        = some ⟨⟨"List[int]"⟩, ParseState.PARSED, none, some R9⟩
      ∧ copy_type_hint 2 envTriv true "List[int]" σ9
        = .ok (some (TypeHintNode.mk σ9.counter R9.type R9.children
            R9.definition none), { σ9 with counter := σ9.counter + 1 }) :=
  ⟨rfl, C9_thm 0 envTriv true "List[int]" σ9
    ⟨⟨"List[int]"⟩, ParseState.PARSED, none, some R9⟩ R9 rfl (by decide) rfl⟩

/-- C4: resolving a single-part class name whose direction-specific override
hint is the mid-parse hint naming that very class returns a plain
class-reference node, for EVERY copy callback: the `PARSING` guard takes the
branch that never invokes `_copy_type_hint`, so no recursion into the
override hint happens and resolution terminates at once. -/
theorem C4_thm (spec : SpecTable) (out : Bool)
    (copyFn : String → MState → Except Err (Option TypeHintNode × MState))
    (name : String) (σ : MState) (c : WrappedClass) (th : TypeHintsRec)
    (m : ManagedTypeHint)
    (hparts : scoped_name_parts name = [name])
    (hen : lookup_enum spec name none none = none)
    (hmt : lookup_mapped_type spec name = none)
    (hcl : lookup_class spec name none = some c)
    (hth : c.typeHints = some th)
    (hh : hint_for th out = some name)
    (hm : mfind σ name = some m)
    (hs : m.parse_state = ParseState.PARSING) :
    lookup_type spec out copyFn name σ = .ok (alloc_class c σ) := by
  unfold lookup_type
  rw [hparts]
  unfold lookup_parts
  simp only [hen, hmt, hcl, hth, hh, hm, hs, Option.isSome_none,
    Option.isNone_none, List.isEmpty_nil, if_true, Bool.false_eq_true,
    if_false, reduceIte]

/-- A class `K` whose outgoing override hint is the text `K` — a
self-reference. -/
def kK : WrappedClass :=
  { id := 7, ifaceBaseName := "K", scope := none, external := false,
    typeHints := some ⟨none, some "K"⟩ }

/-- The symbol table holding only the self-referential class `K`. -/
def specK : SpecTable := ⟨[], [kK], []⟩

/-- The environment over that symbol table. -/
def envK : Env := { envTriv with spec := specK }

/-- The manager state in which the hint `K` is mid-parse. -/
def σK : MState := ⟨0, [("K", ⟨⟨"K"⟩, ParseState.PARSING, none, none⟩)]⟩

/-- C4 (witness): the statement at the concrete self-referential class `K`
with an always-failing copy callback (showing it is never consulted), plus
the end-to-end run: parsing the hint text `K` itself terminates with a
class-reference root. -/
theorem C4_witness :
    scoped_name_parts "K" = ["K"]
      ∧ lookup_class specK "K" none = some kK
      ∧ hint_for ⟨none, some "K"⟩ true = some "K"
      ∧ mfind σK "K" = some ⟨⟨"K"⟩, ParseState.PARSING, none, none⟩
      ∧ lookup_type specK true (fun _ _ => .error Err.fuel) "K" σK
          = .ok (alloc_class kK σK)
      ∧ parseF 2 envK true "K" (reg "K" emptyMState)
          = .ok (parsed_state (reg "K" emptyMState) "K"
              ⟨⟨"K"⟩, ParseState.REQUIRED, none, none⟩
              (some (TypeHintNode.mk 0 NodeType.CLASS none
                (some (NodeDef.klass kK)) none)) 1) :=
  ⟨rfl, rfl, rfl, rfl,
    C4_thm specK true (fun _ _ => .error Err.fuel) "K" σK kK ⟨none, some "K"⟩
      ⟨⟨"K"⟩, ParseState.PARSING, none, none⟩ rfl rfl rfl rfl rfl rfl rfl rfl,
    rfl⟩

/-- C5: requesting the same hint text twice returns the identical `TypeHint`
object and leaves the manager unchanged on the second request; and once a
first parse has succeeded, the tri-state marker makes every later parse —
hence every later render's embedded parse, in any mode, with either
direction — a no-op on the manager state: parsing happens at most once. -/
theorem C5_thm (f f2 : Nat) (env env2 : Env) (out out2 pep rr : Bool)
    (module defined : Option String) (t : String) (σ σ1 : MState)
    (m : ManagedTypeHint)
    (h : mfind σ t = some m) (hs : m.parse_state = ParseState.REQUIRED)
    (hp1 : parseF f env out t σ = .ok σ1) :
    (get_type_hint t ((get_type_hint t σ).2)).1 = (get_type_hint t σ).1
      ∧ (get_type_hint t ((get_type_hint t σ).2)).2 = (get_type_hint t σ).2
      ∧ parseF (f2 + 1) env2 out2 t σ1 = .ok σ1
      ∧ (renderF (f2 + 1) env2 out2 pep rr module defined t σ1).map Prod.snd
          = .ok σ1 := by
  refine ⟨by simp [get_type_hint, h], by simp [get_type_hint, h], ?_⟩
  cases f with
  | zero => exact absurd hp1 (by simp [parseF])
  | succ f' =>
      simp only [parseF, h, if_pos hs] at hp1
      split at hp1
      · exact absurd hp1 (by simp)
      · rename_i root σ2 _
        split at hp1
        · exact absurd hp1 (by simp)
        · rename_i m2 _
          cases hp1
          have hfind : mfind (mset σ2 t
              { m2 with parse_state := ParseState.PARSED, root := root }) t
            = some { m2 with parse_state := ParseState.PARSED, root := root } :=
            mfind_mset_self _ _ _
          have hdone : parseF (f2 + 1) env2 out2 t
              (mset σ2 t { m2 with parse_state := ParseState.PARSED, root := root })
            = .ok (mset σ2 t { m2 with parse_state := ParseState.PARSED, root := root }) :=
            parseF_step_done f2 env2 out2 t _ _ hfind (by simp)
          refine ⟨hdone, ?_⟩
          unfold renderF
          simp only [hdone, hfind]
          cases root <;> simp [Except.map]

/-- The manager state after the one parse of the hint `Any`. -/
def σA : MState :=
  parsed_state (reg "Any" emptyMState) "Any" ⟨⟨"Any"⟩, ParseState.REQUIRED, none, none⟩
    (some (TypeHintNode.mk 0 NodeType.TYPING none (some (NodeDef.str "Any")) none)) 1

/-- C5 (witness): the statement at the hint `Any`: the second request
returns the same object and state, and after the first parse a second parse
and a later render (opposite direction, annotation mode) leave the manager
untouched. -/
theorem C5_witness :
    mfind (reg "Any" emptyMState) "Any"
        = some ⟨⟨"Any"⟩, ParseState.REQUIRED, none, none⟩
      ∧ parseF 2 envTriv true "Any" (reg "Any" emptyMState) = .ok σA
      ∧ ((get_type_hint "Any" ((get_type_hint "Any" (reg "Any" emptyMState)).2)).1
            = (get_type_hint "Any" (reg "Any" emptyMState)).1
        ∧ (get_type_hint "Any" ((get_type_hint "Any" (reg "Any" emptyMState)).2)).2
            = (get_type_hint "Any" (reg "Any" emptyMState)).2
        ∧ parseF 1 envTriv false "Any" σA = .ok σA
        ∧ (renderF 1 envTriv false true true none none "Any" σA).map Prod.snd
            = .ok σA) :=
  ⟨rfl, rfl, C5_thm 2 0 envTriv envTriv true false true true none none "Any"
    (reg "Any" emptyMState) σA ⟨⟨"Any"⟩, ParseState.REQUIRED, none, none⟩
    rfl rfl rfl⟩

/-- A successful parse from the `REQUIRED` state always leaves the hint
marked `PARSED`. -/
theorem parseF_marks_parsed (f : Nat) (env : Env) (out : Bool) (t : String)
    (σ σ1 : MState) (m : ManagedTypeHint)
    (h : mfind σ t = some m) (hs : m.parse_state = ParseState.REQUIRED)
    (hp1 : parseF f env out t σ = .ok σ1) :
    ∃ m1, mfind σ1 t = some m1 ∧ m1.parse_state = ParseState.PARSED := by
  cases f with
  | zero => exact absurd hp1 (by simp [parseF])
  | succ f' =>
      simp only [parseF, h, if_pos hs] at hp1
      split at hp1
      · exact absurd hp1 (by simp)
      · rename_i root σ2 _
        split at hp1
        · exact absurd hp1 (by simp)
        · rename_i m2 _
          cases hp1
          exact ⟨_, mfind_mset_self _ _ _, rfl⟩

/-- C10: the tree is built only by the first parse-triggering
cross-reference call, with that call's direction `out1`: after a successful
first `rest_ref` on a fresh (`REQUIRED`, uncached) hint, the entry is
`PARSED` with the string cached, every later `rest_ref` — with any
environment, any fuel, and EITHER direction — returns the same cached string
and leaves the state untouched, and every later render in any mode with
either direction leaves the state (hence the tree) unchanged. -/
theorem C10_thm (f : Nat) (env : Env) (out1 : Bool) (t : String)
    (σ0 σ1 : MState) (m0 : ManagedTypeHint) (r : String)
    (h0 : mfind σ0 t = some m0) (hs0 : m0.parse_state = ParseState.REQUIRED)
    (hrr0 : m0.rest_ref = none)
    (hrun : rest_ref f env out1 t σ0 = .ok (r, σ1)) :
    ∃ m1, (mfind σ1 t = some m1 ∧ m1.parse_state = ParseState.PARSED
        ∧ m1.rest_ref = some r)
      ∧ (∀ f2 env2 out2, rest_ref f2 env2 out2 t σ1 = .ok (r, σ1))
      ∧ (∀ f2 env2 out2 pep rr mo de,
          (renderF (f2 + 1) env2 out2 pep rr mo de t σ1).map Prod.snd
            = .ok σ1) := by
  unfold rest_ref at hrun
  simp only [h0, hrr0] at hrun
  split at hrun
  · exact absurd hrun (by simp)
  · rename_i s σr hren
    split at hrun
    · exact absurd hrun (by simp)
    · rename_i mr hmr
      rw [Except.ok.injEq, Prod.mk.injEq] at hrun
      obtain ⟨hsr, hσ1⟩ := hrun
      subst hsr
      unfold renderF at hren
      split at hren
      · exact absurd hren (by simp)
      · rename_i σp hp
        split at hren
        · exact absurd hren (by simp)
        · rename_i mp hmp
          have hσr : σr = σp := by
            split at hren <;>
              (rw [Except.ok.injEq, Prod.mk.injEq] at hren; exact hren.2.symm)
          subst hσr
          obtain ⟨m1, hfind, hps⟩ := parseF_marks_parsed f env out1 t σ0 σr m0 h0 hs0 hp
          have hmr1 : mr = m1 := by
            rw [hmr] at hfind
            exact Option.some.inj hfind
          subst hmr1
          obtain ⟨m1t, m1s, m1r, m1root⟩ := mr
          simp only at hps
          subst hps
          subst hσ1
          have hfind1 : mfind (mset σr t ⟨m1t, ParseState.PARSED, some s, m1root⟩) t
              = some ⟨m1t, ParseState.PARSED, some s, m1root⟩ :=
            mfind_mset_self _ _ _
          refine ⟨⟨m1t, ParseState.PARSED, some s, m1root⟩, ⟨hfind1, rfl, rfl⟩, ?_, ?_⟩
          · intro f2 env2 out2
            unfold rest_ref
            simp only [hfind1]
          · intro f2 env2 out2 pep rr mo de
            have hdone : parseF (f2 + 1) env2 out2 t
                (mset σr t ⟨m1t, ParseState.PARSED, some s, m1root⟩)
              = .ok (mset σr t ⟨m1t, ParseState.PARSED, some s, m1root⟩) :=
              parseF_step_done f2 env2 out2 t _ _ hfind1 (by simp)
            unfold renderF
            simp only [hdone, hfind1]
            cases m1root <;> simp [Except.map]

/-- The manager state after the first cross-reference call on the hint
`int`: parsed, with its reST string cached. -/
def σI : MState :=
  ⟨1, [("int", ⟨⟨"int"⟩, ParseState.PARSED, some "int",
    some (TypeHintNode.mk 0 NodeType.OTHER none (some (NodeDef.str "int")) none)⟩)]⟩

/-- C10 (witness): the statement at the hint `int`, whose first outgoing
cross-reference call caches the string `int`. -/
theorem C10_witness :
    mfind (reg "int" emptyMState) "int"
        = some ⟨⟨"int"⟩, ParseState.REQUIRED, none, none⟩
      ∧ rest_ref 2 envTriv true "int" (reg "int" emptyMState) = .ok ("int", σI)
      ∧ ∃ m1, (mfind σI "int" = some m1 ∧ m1.parse_state = ParseState.PARSED
            ∧ m1.rest_ref = some "int")
          ∧ (∀ f2 env2 out2, rest_ref f2 env2 out2 "int" σI = .ok ("int", σI))
          ∧ (∀ f2 env2 out2 pep rr mo de,
              (renderF (f2 + 1) env2 out2 pep rr mo de "int" σI).map Prod.snd
                = .ok σI) :=
  ⟨rfl, rfl, C10_thm 2 envTriv true "int" (reg "int" emptyMState) σI
    ⟨⟨"int"⟩, ParseState.REQUIRED, none, none⟩ "int" rfl rfl rfl rfl⟩

/-- The id-erased shape of a node tree: the node ids are dropped and the
sibling link is reduced to whether it is set (ids are allocation order, not
structure). -/
inductive NodeShape where
  | mk (type : NodeType) (children : Option (List NodeShape))
      (definition : Option NodeDef) (next_set : Bool)

mutual

/-- Erase a node to its shape. -/
def shape_of : TypeHintNode → NodeShape
  | TypeHintNode.mk _ ty ch df nx =>
      NodeShape.mk ty
        (match ch with
         | none => none
         | some cs => some (shape_list cs)) df nx.isSome

/-- Erase a list of nodes to their shapes. -/
def shape_list : List TypeHintNode → List NodeShape
  | [] => []
  | n :: ns => shape_of n :: shape_list ns

end

/-- Indexing past a prefix lands in the suffix. -/
theorem charAt_append_right (u v : List Char) (i : Nat) :
    charAt (u ++ v) (u.length + i) = charAt v i := by
  unfold charAt
  rw [List.getD_append_right u v 'x' (u.length + i) (by omega)]
  congr 1
  omega

/-- Indexing within a prefix ignores the suffix. -/
theorem charAt_append_left (u v : List Char) (i : Nat) (h : i < u.length) :
    charAt (u ++ v) i = charAt u i := by
  unfold charAt
  exact List.getD_append u v 'x' i h

/-- Indexing a concatenation at an offset past a known prefix. -/
theorem charAt_of_concat (T pre post : List Char) (j k : Nat)
    (hT : T = pre ++ post) (hj : j = pre.length + k) :
    charAt T j = charAt post k := by
  subst hT hj
  exact charAt_append_right pre post k

/-- An in-range indexed character is a member. -/
theorem charAt_mem (n : List Char) (i : Nat) (h : i < n.length) :
    charAt n i ∈ n := by
  unfold charAt
  rw [List.getD_eq_getElem n 'x' h]
  exact List.getElem_mem h

/-- Leading strip is the identity when the first character is no space. -/
theorem strip_leading_id (text : List Char) (s e : Nat)
    (h : charAt text s ≠ ' ') : strip_leading text s e = s := by
  unfold strip_leading
  cases hg : e - s with
  | zero => rfl
  | succ g => simp [strip_leading_go, h]

/-- Trailing strip is the identity when the last character is no space. -/
theorem strip_trailing_id (text : List Char) (s e : Nat)
    (h : charAt text (e - 1) ≠ ' ') : strip_trailing text s e = e := by
  unfold strip_trailing
  cases hg : e - s with
  | zero => rfl
  | succ g => simp [strip_trailing_go, h]

/-- The bracket scan of an empty range finds nothing. -/
theorem find_open_none_of_ge (text : List Char) (s e : Nat) (h : e ≤ s) :
    find_open text s e = none := by
  unfold find_open
  have : e - s = 0 := by omega
  rw [this]
  rfl

/-- The bracket scan steps over a non-bracket character. -/
theorem find_open_step (text : List Char) (s e : Nat) (h : s < e)
    (hc : charAt text s ≠ '[') :
    find_open text s e = find_open text (s + 1) e := by
  unfold find_open
  have hg : e - s = (e - (s + 1)) + 1 := by omega
  rw [hg]
  simp [find_open_go, h, hc]

/-- The bracket scan stops at an opening bracket. -/
theorem find_open_hit (text : List Char) (s e : Nat) (h : s < e)
    (hc : charAt text s = '[') :
    find_open text s e = some s := by
  unfold find_open
  have hg : e - s = (e - (s + 1)) + 1 := by omega
  rw [hg]
  simp [find_open_go, h, hc]

/-- The separator scan of an empty range finds nothing. -/
theorem find_split_none_of_ge (text : List Char) (i e d : Nat) (h : e ≤ i) :
    find_split text i e d = none := by
  unfold find_split
  have : e - i = 0 := by omega
  rw [this]
  rfl

/-- The separator scan steps over an ordinary character. -/
theorem find_split_skip (text : List Char) (i e d : Nat) (h : i < e)
    (h1 : charAt text i ≠ '[') (h2 : charAt text i ≠ ']')
    (h3 : charAt text i ≠ ',') :
    find_split text i e d = find_split text (i + 1) e d := by
  unfold find_split
  have hg : e - i = (e - (i + 1)) + 1 := by omega
  rw [hg]
  simp [find_split_go, h, h1, h2, h3]

/-- A comma inside brackets does not split. -/
theorem find_split_comma_deep (text : List Char) (i e d : Nat) (h : i < e)
    (hc : charAt text i = ',') (hd : d ≠ 0) :
    find_split text i e d = find_split text (i + 1) e d := by
  unfold find_split
  have hg : e - i = (e - (i + 1)) + 1 := by omega
  rw [hg]
  simp [find_split_go, h, hc, hd]

/-- An opening bracket increments the depth. -/
theorem find_split_open (text : List Char) (i e d : Nat) (h : i < e)
    (hc : charAt text i = '[') :
    find_split text i e d = find_split text (i + 1) e (d + 1) := by
  unfold find_split
  have hg : e - i = (e - (i + 1)) + 1 := by omega
  rw [hg]
  simp [find_split_go, h, hc]

/-- A closing bracket at positive depth decrements it. -/
theorem find_split_close (text : List Char) (i e d : Nat) (h : i < e)
    (hc : charAt text i = ']') (hd : d ≠ 0) :
    find_split text i e d = find_split text (i + 1) e (d - 1) := by
  unfold find_split
  have hg : e - i = (e - (i + 1)) + 1 := by omega
  simp [hg, find_split_go, h, hc, hd]

/-- A comma or closing bracket at depth zero is the split point. -/
theorem find_split_hit (text : List Char) (i e : Nat) (h : i < e)
    (hc : charAt text i = ',' ∨ charAt text i = ']') :
    find_split text i e 0 = some i := by
  unfold find_split
  have hg : e - i = (e - (i + 1)) + 1 := by omega
  rw [hg]
  rcases hc with hc | hc <;> simp [find_split_go, h, hc]

/-- The bracket scan skips a whole bracket-free region. -/
theorem find_open_skip_region (text : List Char) (e : Nat) :
    ∀ (n s : Nat), s + n ≤ e →
      (∀ j, s ≤ j → j < s + n → charAt text j ≠ '[') →
      find_open text s e = find_open text (s + n) e := by
  intro n
  induction n with
  | zero => intro s _ _; rfl
  | succ k ih =>
      intro s hse hpl
      rw [find_open_step text s e (by omega) (hpl s (by omega) (by omega))]
      rw [ih (s + 1) (by omega) (fun j h1 h2 => hpl j (by omega) (by omega))]
      congr 1
      omega

/-- The separator scan skips a whole region free of special characters. -/
theorem find_split_skip_region (text : List Char) (e d : Nat) :
    ∀ (n s : Nat), s + n ≤ e →
      (∀ j, s ≤ j → j < s + n →
        charAt text j ≠ '[' ∧ charAt text j ≠ ']' ∧ charAt text j ≠ ',') →
      find_split text s e d = find_split text (s + n) e d := by
  intro n
  induction n with
  | zero => intro s _ _; rfl
  | succ k ih =>
      intro s hse hpl
      obtain ⟨h1, h2, h3⟩ := hpl s (by omega) (by omega)
      rw [find_split_skip text s e d (by omega) h1 h2 h3]
      rw [ih (s + 1) (by omega) (fun j hj1 hj2 => hpl j (by omega) (by omega))]
      congr 1
      omega

/-- A character indexed inside an embedded name belongs to the name. -/
theorem charAt_name_region (T u n v : List Char) (j : Nat)
    (hT : T = u ++ (n ++ v)) (h1 : u.length ≤ j) (h2 : j < u.length + n.length) :
    charAt T j ∈ n := by
  subst hT
  have hj : j = u.length + (j - u.length) := by omega
  rw [hj, charAt_append_right]
  have hlt : j - u.length < n.length := by omega
  rw [charAt_append_left n v _ hlt]
  exact charAt_mem n _ hlt

/-- Slicing exactly an embedded name returns it. -/
theorem slice_name (T u n v : List Char) (s e : Nat)
    (hT : T = u ++ (n ++ v)) (hs : s = u.length) (he : e = s + n.length) :
    slice_str T s e = String.mk n := by
  subst hT hs he
  unfold slice_str
  rw [List.drop_left u (n ++ v)]
  have : u.length + n.length - u.length = n.length := by omega
  rw [this, List.take_append_of_le_length (by omega), List.take_length]

/-- Slicing within a prefix ignores the suffix. -/
theorem slice_in_prefix (u w : List Char) (s e : Nat) (he : e ≤ u.length) :
    slice_str (u ++ w) s e = slice_str u s e := by
  unfold slice_str
  rcases le_or_lt e s with hse | hse
  · have h0 : e - s = 0 := by omega
    rw [h0]
    simp
  · rw [List.drop_append_of_le_length (by omega),
      List.take_append_of_le_length (by simp; omega)]

/-- A plain name: every character is ordinary (no space, bracket or comma). -/
def plainChars (n : List Char) : Prop :=
  ∀ ch ∈ n, ch ≠ ' ' ∧ ch ≠ '[' ∧ ch ≠ ']' ∧ ch ≠ ','

/-- Parsing a part that is exactly a plain, non-typing name delegates to the
name resolver. -/
theorem parse_node_plain_name (f : Nat) (lk : LookupFn) (T u n v : List Char)
    (s e : Nat) (σ : MState)
    (hT : T = u ++ (n ++ v)) (hs : s = u.length) (he : e = s + n.length)
    (hne : n ≠ []) (hpl : plainChars n) (hnm : String.mk n ∉ TYPING_MODULE) :
    parse_node (f + 1) lk T s e false σ = lk (String.mk n) σ := by
  have hn0 : 0 < n.length := List.length_pos.mpr hne
  have hsl : strip_leading T s e = s :=
    strip_leading_id T s e
      (hpl _ (charAt_name_region T u n v s hT (by omega) (by omega))).1
  have hst : strip_trailing T s e = e :=
    strip_trailing_id T s e
      (hpl _ (charAt_name_region T u n v (e - 1) hT (by omega) (by omega))).1
  have hfo : find_open T s e = none := by
    have hr := find_open_skip_region T e n.length s (by omega)
      (fun j h1 h2 => (hpl _ (charAt_name_region T u n v j hT (by omega) (by omega))).2.1)
    rw [hr, find_open_none_of_ge T (s + n.length) e (by omega)]
  rw [parse_node_step_none f lk T s e false σ (by rw [hsl, hst]; exact hfo)]
  rw [hsl, hst]
  unfold parse_finish
  rw [if_pos (by omega : s ≠ e)]
  rw [slice_name T u n v s e hT hs he]
  rw [if_neg hnm]
  simp

/-- The finish step on a span spelling `Union` with a non-empty child list
builds the flattened union node. -/
theorem parse_finish_union (lk : LookupFn) (T : List Char) (s e : Nat)
    (cs : List TypeHintNode) (top : Bool) (σ : MState)
    (hslice : slice_str T s e = "Union") (hne : s ≠ e) (hlen : cs.length ≠ 0) :
    parse_finish lk T s e (some cs) top σ
      = .ok (some (TypeHintNode.mk σ.counter NodeType.TYPING
            (some (flatten_union cs)) (some (NodeDef.str "Union")) none),
          { σ with counter := σ.counter + 1 }) := by
  unfold parse_finish
  rw [if_pos hne, hslice]
  simp [alloc, hlen, TYPING_MODULE]

/-- Flattening two non-union children changes nothing — in particular no
sibling link is written (the list never exceeds length one before an
append). -/
theorem flatten_two (x y : TypeHintNode)
    (hx : ¬(x.type = NodeType.TYPING ∧ x.definition = some (NodeDef.str "Union")))
    (hy : ¬(y.type = NodeType.TYPING ∧ y.definition = some (NodeDef.str "Union"))) :
    flatten_union [x, y] = [x, y] := by
  obtain ⟨xn, xt, xc, xd, xx⟩ := x
  obtain ⟨yn, yt, yc, yd, yx⟩ := y
  simp only [TypeHintNode.type, TypeHintNode.definition] at hx hy
  simp [flatten_union, append_child, TypeHintNode.type, TypeHintNode.definition, hx, hy]

/-- Flattening splices a union child inline: its two children come first,
then the non-union child, with the spliced tail linked to it. -/
theorem flatten_splice (aN bN y : TypeHintNode) (uid : Nat)
    (hy : ¬(y.type = NodeType.TYPING ∧ y.definition = some (NodeDef.str "Union"))) :
    flatten_union [TypeHintNode.mk uid NodeType.TYPING (some [aN, bN])
        (some (NodeDef.str "Union")) none, y]
      = [aN, bN.setNext (some y.nid), y] := by
  obtain ⟨yn, yt, yc, yd, yx⟩ := y
  simp only [TypeHintNode.type, TypeHintNode.definition] at hy
  simp [flatten_union, append_child, set_last_next, hy, TypeHintNode.type,
    TypeHintNode.definition, TypeHintNode.childList, TypeHintNode.children,
    TypeHintNode.nid, TypeHintNode.setNext]

/-- Flattening three non-union children keeps them, linking the second to
the third. -/
theorem flatten_three (x y z : TypeHintNode)
    (hx : ¬(x.type = NodeType.TYPING ∧ x.definition = some (NodeDef.str "Union")))
    (hy : ¬(y.type = NodeType.TYPING ∧ y.definition = some (NodeDef.str "Union")))
    (hz : ¬(z.type = NodeType.TYPING ∧ z.definition = some (NodeDef.str "Union"))) :
    flatten_union [x, y, z] = [x, y.setNext (some z.nid), z] := by
  obtain ⟨xn, xt, xc, xd, xx⟩ := x
  obtain ⟨yn, yt, yc, yd, yx⟩ := y
  obtain ⟨zn, zt, zc, zd, zx⟩ := z
  simp only [TypeHintNode.type, TypeHintNode.definition] at hx hy hz
  simp [flatten_union, append_child, set_last_next, hx, hy, hz, TypeHintNode.type,
    TypeHintNode.definition, TypeHintNode.nid, TypeHintNode.setNext]

/-- The literal text chunks of the two union hint texts. -/
def cL0 : List Char := "Union[Union[".data
/-- The literal prefix of the flat union text. -/
def cR0 : List Char := "Union[".data
/-- A literal comma. -/
def cCm : List Char := ",".data
/-- A literal closing bracket followed by a comma. -/
def cBC : List Char := "],".data
/-- A literal closing bracket. -/
def cBr : List Char := "]".data

/-- Symbolic run of the bracket parser on `Union[Union[a,b],c]` for plain
names `a`, `b`, `c` resolved by the callback to single fresh nodes: the
inner union is parsed, then spliced inline by the flattening loop, leaving
one union node over the three arguments in order. -/
theorem C1_run_L (f : Nat) (lk : LookupFn) (a b c : List Char)
    (tyA tyB tyC : NodeType) (chA chB chC : Option (List TypeHintNode))
    (dfA dfB dfC : Option NodeDef) (σ : MState) (T : List Char) (e : Nat)
    (hT : T = cL0 ++ (a ++ (cCm ++ (b ++ (cBC ++ (c ++ cBr))))))
    (he : e = 16 + a.length + b.length + c.length)
    (hna : a ≠ []) (hnb : b ≠ []) (hnc : c ≠ [])
    (hpa : plainChars a) (hpb : plainChars b) (hpc : plainChars c)
    (hma : String.mk a ∉ TYPING_MODULE) (hmb : String.mk b ∉ TYPING_MODULE)
    (hmc : String.mk c ∉ TYPING_MODULE)
    (hlkA : ∀ σ' : MState, lk (String.mk a) σ'
      = .ok (some (TypeHintNode.mk σ'.counter tyA chA dfA none),
          { σ' with counter := σ'.counter + 1 }))
    (hlkB : ∀ σ' : MState, lk (String.mk b) σ'
      = .ok (some (TypeHintNode.mk σ'.counter tyB chB dfB none),
          { σ' with counter := σ'.counter + 1 }))
    (hlkC : ∀ σ' : MState, lk (String.mk c) σ'
      = .ok (some (TypeHintNode.mk σ'.counter tyC chC dfC none),
          { σ' with counter := σ'.counter + 1 }))
    (huA : ¬(tyA = NodeType.TYPING ∧ dfA = some (NodeDef.str "Union")))
    (huB : ¬(tyB = NodeType.TYPING ∧ dfB = some (NodeDef.str "Union")))
    (huC : ¬(tyC = NodeType.TYPING ∧ dfC = some (NodeDef.str "Union"))) :
    parse_node (f + 6) lk T 0 e true σ
      = .ok (some (TypeHintNode.mk (σ.counter + 4) NodeType.TYPING
            (some [(TypeHintNode.mk σ.counter tyA chA dfA none), (TypeHintNode.mk (σ.counter + 1) tyB chB dfB (some (σ.counter + 3))), (TypeHintNode.mk (σ.counter + 3) tyC chC dfC none)])
            (some (NodeDef.str "Union")) none),
          { σ with counter := σ.counter + 5 }) := by
  have lc0 : cL0.length = 12 := rfl
  have lcm : cCm.length = 1 := rfl
  have lbc : cBC.length = 2 := rfl
  have hm1 : e - 1 = 15 + a.length + b.length + c.length := by omega
  have hm2 : 14 + a.length + b.length - 1 = 13 + a.length + b.length := by omega
  have hm3 : 12 + a.length + 1 = 13 + a.length := by omega
  have hm4 : 13 + a.length + b.length + 1 = 14 + a.length + b.length := by omega
  have hm5 : 14 + a.length + b.length + 1 = 15 + a.length + b.length := by omega
  have hT1 : T = (cL0 ++ a) ++ (cCm ++ (b ++ (cBC ++ (c ++ cBr)))) :=
    hT.trans (List.append_assoc cL0 a _).symm
  have hT2 : T = ((cL0 ++ a) ++ cCm) ++ (b ++ (cBC ++ (c ++ cBr))) :=
    hT1.trans (List.append_assoc (cL0 ++ a) cCm _).symm
  have hT3 : T = (((cL0 ++ a) ++ cCm) ++ b) ++ (cBC ++ (c ++ cBr)) :=
    hT2.trans (List.append_assoc ((cL0 ++ a) ++ cCm) b _).symm
  have hT4 : T = ((((cL0 ++ a) ++ cCm) ++ b) ++ cBC) ++ (c ++ cBr) :=
    hT3.trans (List.append_assoc (((cL0 ++ a) ++ cCm) ++ b) cBC _).symm
  have hT5 : T = (((((cL0 ++ a) ++ cCm) ++ b) ++ cBC) ++ c) ++ cBr :=
    hT4.trans (List.append_assoc ((((cL0 ++ a) ++ cCm) ++ b) ++ cBC) c _).symm
  have l1 : (cL0 ++ a).length = 12 + a.length := by
    simp only [List.length_append, lc0]
  have l2 : ((cL0 ++ a) ++ cCm).length = 13 + a.length := by
    simp only [List.length_append, lc0, lcm]; omega
  have l3 : ((((cL0 ++ a) ++ cCm) ++ b)).length = 13 + a.length + b.length := by
    simp only [List.length_append, lc0, lcm]; omega
  have l4 : (((((cL0 ++ a) ++ cCm) ++ b) ++ cBC)).length = 15 + a.length + b.length := by
    simp only [List.length_append, lc0, lcm, lbc]; omega
  have l5 : ((((((cL0 ++ a) ++ cCm) ++ b) ++ cBC) ++ c)).length
      = 15 + a.length + b.length + c.length := by
    simp only [List.length_append, lc0, lcm, lbc]; omega
  have hlit : ∀ j, j < 12 → charAt T j = charAt cL0 j := fun j hj => by
    rw [hT]; exact charAt_append_left cL0 _ j (by rw [lc0]; exact hj)
  have hc0 : charAt T 0 = 'U' := by rw [hlit 0 (by omega)]; rfl
  have hc4 : charAt T 4 = 'n' := by rw [hlit 4 (by omega)]; rfl
  have hc5 : charAt T 5 = '[' := by rw [hlit 5 (by omega)]; rfl
  have hc6 : charAt T 6 = 'U' := by rw [hlit 6 (by omega)]; rfl
  have hc10 : charAt T 10 = 'n' := by rw [hlit 10 (by omega)]; rfl
  have hc11 : charAt T 11 = '[' := by rw [hlit 11 (by omega)]; rfl
  have hlitU : ∀ j, 6 ≤ j → j < 11 →
      charAt T j ≠ '[' ∧ charAt T j ≠ ']' ∧ charAt T j ≠ ',' := by
    intro j h1 h2
    rw [hlit j (by omega)]
    interval_cases j <;> exact ⟨by decide, by decide, by decide⟩
  have hlit0 : ∀ j, 0 ≤ j → j < 5 → charAt T j ≠ '[' := by
    intro j _ h2
    rw [hlit j (by omega)]
    interval_cases j <;> decide
  have hregA : ∀ j, 12 ≤ j → j < 12 + a.length → charAt T j ∈ a := fun j h1 h2 =>
    charAt_name_region T cL0 a _ j hT (by rw [lc0]; omega) (by rw [lc0]; omega)
  have hregB : ∀ j, 13 + a.length ≤ j → j < 13 + a.length + b.length →
      charAt T j ∈ b := fun j h1 h2 =>
    charAt_name_region T ((cL0 ++ a) ++ cCm) b _ j hT2 (by rw [l2]; omega)
      (by rw [l2]; omega)
  have hregC : ∀ j, 15 + a.length + b.length ≤ j →
      j < 15 + a.length + b.length + c.length → charAt T j ∈ c := fun j h1 h2 =>
    charAt_name_region T ((((cL0 ++ a) ++ cCm) ++ b) ++ cBC) c _ j hT4
      (by rw [l4]; omega) (by rw [l4]; omega)
  have hplA : ∀ j, 12 ≤ j → j < 12 + a.length →
      charAt T j ≠ '[' ∧ charAt T j ≠ ']' ∧ charAt T j ≠ ',' := fun j h1 h2 =>
    ⟨(hpa _ (hregA j h1 h2)).2.1, (hpa _ (hregA j h1 h2)).2.2.1,
     (hpa _ (hregA j h1 h2)).2.2.2⟩
  have hplB : ∀ j, 13 + a.length ≤ j → j < 13 + a.length + b.length →
      charAt T j ≠ '[' ∧ charAt T j ≠ ']' ∧ charAt T j ≠ ',' := fun j h1 h2 =>
    ⟨(hpb _ (hregB j h1 h2)).2.1, (hpb _ (hregB j h1 h2)).2.2.1,
     (hpb _ (hregB j h1 h2)).2.2.2⟩
  have hplC : ∀ j, 15 + a.length + b.length ≤ j →
      j < 15 + a.length + b.length + c.length →
      charAt T j ≠ '[' ∧ charAt T j ≠ ']' ∧ charAt T j ≠ ',' := fun j h1 h2 =>
    ⟨(hpc _ (hregC j h1 h2)).2.1, (hpc _ (hregC j h1 h2)).2.2.1,
     (hpc _ (hregC j h1 h2)).2.2.2⟩
  have hcm1 : charAt T (12 + a.length) = ',' := by
    rw [charAt_of_concat T (cL0 ++ a) (cCm ++ (b ++ (cBC ++ (c ++ cBr))))
      (12 + a.length) 0 hT1 (by rw [l1]; omega)]
    rfl
  have hbr1 : charAt T (13 + a.length + b.length) = ']' := by
    rw [charAt_of_concat T (((cL0 ++ a) ++ cCm) ++ b) (cBC ++ (c ++ cBr))
      (13 + a.length + b.length) 0 hT3 (by rw [l3]; omega)]
    rfl
  have hcm2 : charAt T (14 + a.length + b.length) = ',' := by
    rw [charAt_of_concat T (((cL0 ++ a) ++ cCm) ++ b) (cBC ++ (c ++ cBr))
      (14 + a.length + b.length) 1 hT3 (by rw [l3]; omega)]
    rfl
  have hbr2 : charAt T (15 + a.length + b.length + c.length) = ']' := by
    rw [charAt_of_concat T (((((cL0 ++ a) ++ cCm) ++ b) ++ cBC) ++ c) cBr
      (15 + a.length + b.length + c.length) 0 hT5 (by rw [l5]; omega)]
    rfl
  have hsl0 : strip_leading T 0 e = 0 :=
    strip_leading_id T 0 e (by rw [hc0]; decide)
  have hst0 : strip_trailing T 0 e = e :=
    strip_trailing_id T 0 e (by rw [hm1, hbr2]; decide)
  have hst05 : strip_trailing T 0 5 = 5 :=
    strip_trailing_id T 0 5 (by rw [show (5:Nat) - 1 = 4 from rfl, hc4]; decide)
  have hfo : find_open T 0 e = some 5 := by
    rw [find_open_skip_region T e 5 0 (by omega) (fun j h1 h2 => hlit0 j h1 h2)]
    exact find_open_hit T 5 e (by omega) hc5
  have hslice05 : slice_str T 0 5 = "Union" := by
    rw [hT, slice_in_prefix cL0 _ 0 5 (by rw [lc0]; omega)]
    rfl
  have hslI : strip_leading T 6 (14 + a.length + b.length) = 6 :=
    strip_leading_id _ _ _ (by rw [hc6]; decide)
  have hstI : strip_trailing T 6 (14 + a.length + b.length) = 14 + a.length + b.length :=
    strip_trailing_id _ _ _ (by rw [hm2, hbr1]; decide)
  have hstI11 : strip_trailing T 6 11 = 11 :=
    strip_trailing_id _ _ _ (by rw [show (11:Nat) - 1 = 10 from rfl, hc10]; decide)
  have hfoI : find_open T 6 (14 + a.length + b.length) = some 11 := by
    rw [find_open_skip_region T (14 + a.length + b.length) 5 6 (by omega)
      (fun j h1 h2 => (hlitU j h1 h2).1)]
    rw [show (6:Nat) + 5 = 11 from rfl]
    exact find_open_hit T 11 _ (by omega) hc11
  have hsliceI : slice_str T 6 11 = "Union" := by
    rw [hT, slice_in_prefix cL0 _ 6 11 (by rw [lc0]; omega)]
    rfl
  have hsplitA : find_split T (11 + 1) (14 + a.length + b.length) 0
      = some (12 + a.length) := by
    rw [show (11:Nat) + 1 = 12 from rfl]
    rw [find_split_skip_region T (14 + a.length + b.length) 0 a.length 12
      (by omega) (fun j h1 h2 => hplA j h1 h2)]
    exact find_split_hit T (12 + a.length) (14 + a.length + b.length) (by omega)
      (Or.inl hcm1)
  have hpartA : parse_node (f + 2) lk T 12 (12 + a.length) false σ
      = .ok (some (TypeHintNode.mk σ.counter tyA chA dfA none), { σ with counter := σ.counter + 1 }) := by
    rw [parse_node_plain_name (f + 1) lk T cL0 a _ 12 (12 + a.length) σ hT
      (by rw [lc0]) rfl hna hpa hma]
    exact hlkA σ
  have hsplitB : find_split T (12 + a.length + 1) (14 + a.length + b.length) 0
      = some (13 + a.length + b.length) := by
    rw [hm3]
    rw [find_split_skip_region T (14 + a.length + b.length) 0 b.length
      (13 + a.length) (by omega) (fun j h1 h2 => hplB j h1 h2)]
    exact find_split_hit T (13 + a.length + b.length) (14 + a.length + b.length)
      (by omega) (Or.inr hbr1)
  have hpartB : parse_node (f + 1) lk T (12 + a.length + 1)
      (13 + a.length + b.length) false { σ with counter := σ.counter + 1 }
      = .ok (some (TypeHintNode.mk (σ.counter + 1) tyB chB dfB none), { σ with counter := σ.counter + 2 }) := by
    rw [parse_node_plain_name f lk T ((cL0 ++ a) ++ cCm) b _ (12 + a.length + 1)
      (13 + a.length + b.length) _ hT2 (by rw [l2]; omega) (by omega) hnb hpb hmb]
    exact hlkB _
  have hnoneInner : find_split T (13 + a.length + b.length + 1)
      (14 + a.length + b.length) 0 = none :=
    find_split_none_of_ge T _ _ 0 (by omega)
  have hpartsInner : parse_parts (f + 3) lk T 11 (14 + a.length + b.length) [] σ
      = .ok ([(TypeHintNode.mk σ.counter tyA chA dfA none), (TypeHintNode.mk (σ.counter + 1) tyB chB dfB none)], { σ with counter := σ.counter + 2 }) := by
    rw [parse_parts_step_some (f + 2) lk T 11 (14 + a.length + b.length) [] σ
      (12 + a.length) (TypeHintNode.mk σ.counter tyA chA dfA none) { σ with counter := σ.counter + 1 } hsplitA hpartA]
    rw [parse_parts_step_some (f + 1) lk T (12 + a.length) (14 + a.length + b.length)
      (append_child [] (TypeHintNode.mk σ.counter tyA chA dfA none)) { σ with counter := σ.counter + 1 }
      (13 + a.length + b.length) (TypeHintNode.mk (σ.counter + 1) tyB chB dfB none) { σ with counter := σ.counter + 2 }
      hsplitB hpartB]
    rw [parse_parts_step_none f lk T (13 + a.length + b.length)
      (14 + a.length + b.length) _ _ hnoneInner]
    rfl
  have hrunInner : parse_node (f + 4) lk T 6 (14 + a.length + b.length) false σ
      = .ok (some (TypeHintNode.mk (σ.counter + 2) NodeType.TYPING (some [(TypeHintNode.mk σ.counter tyA chA dfA none), (TypeHintNode.mk (σ.counter + 1) tyB chB dfB none)]) (some (NodeDef.str "Union")) none), { σ with counter := σ.counter + 3 }) := by
    have harg1 : find_open T (strip_leading T 6 (14 + a.length + b.length))
        (strip_trailing T (strip_leading T 6 (14 + a.length + b.length))
          (14 + a.length + b.length)) = some 11 := by rw [hslI, hstI]; exact hfoI
    have harg2 : charAt T (strip_trailing T (strip_leading T 6 (14 + a.length + b.length))
        (14 + a.length + b.length) - 1) = ']' := by rw [hslI, hstI, hm2]; exact hbr1
    have harg3 : parse_parts (f + 3) lk T 11
        (strip_trailing T (strip_leading T 6 (14 + a.length + b.length))
          (14 + a.length + b.length)) [] σ
        = .ok ([(TypeHintNode.mk σ.counter tyA chA dfA none), (TypeHintNode.mk (σ.counter + 1) tyB chB dfB none)], { σ with counter := σ.counter + 2 }) := by
      rw [hslI, hstI]; exact hpartsInner
    rw [parse_node_step_ok (f + 3) lk T 6 (14 + a.length + b.length) false σ 11
      [(TypeHintNode.mk σ.counter tyA chA dfA none), (TypeHintNode.mk (σ.counter + 1) tyB chB dfB none)] { σ with counter := σ.counter + 2 } harg1 harg2 harg3]
    rw [hslI, hstI11]
    rw [parse_finish_union lk T 6 11 [(TypeHintNode.mk σ.counter tyA chA dfA none), (TypeHintNode.mk (σ.counter + 1) tyB chB dfB none)] false _ hsliceI (by omega) (by simp)]
    rw [flatten_two (TypeHintNode.mk σ.counter tyA chA dfA none) (TypeHintNode.mk (σ.counter + 1) tyB chB dfB none) huA huB]
  have hsplitC : find_split T (14 + a.length + b.length + 1) e 0
      = some (15 + a.length + b.length + c.length) := by
    rw [hm5]
    rw [find_split_skip_region T e 0 c.length (15 + a.length + b.length) (by omega)
      (fun j h1 h2 => hplC j h1 h2)]
    exact find_split_hit T (15 + a.length + b.length + c.length) e (by omega)
      (Or.inr hbr2)
  have hpartC : parse_node (f + 3) lk T (14 + a.length + b.length + 1)
      (15 + a.length + b.length + c.length) false { σ with counter := σ.counter + 3 }
      = .ok (some (TypeHintNode.mk (σ.counter + 3) tyC chC dfC none), { σ with counter := σ.counter + 4 }) := by
    rw [parse_node_plain_name (f + 2) lk T ((((cL0 ++ a) ++ cCm) ++ b) ++ cBC) c _
      (14 + a.length + b.length + 1) (15 + a.length + b.length + c.length) _ hT4
      (by rw [l4]; omega) (by omega) hnc hpc hmc]
    exact hlkC _
  have hsplit1 : find_split T (5 + 1) e 0 = some (14 + a.length + b.length) := by
    rw [show (5:Nat) + 1 = 6 from rfl]
    rw [find_split_skip_region T e 0 5 6 (by omega) (fun j h1 h2 => hlitU j h1 h2)]
    rw [show (6:Nat) + 5 = 11 from rfl]
    rw [find_split_open T 11 e 0 (by omega) hc11]
    rw [show (11:Nat) + 1 = 12 from rfl, show (0:Nat) + 1 = 1 from rfl]
    rw [find_split_skip_region T e 1 a.length 12 (by omega)
      (fun j h1 h2 => hplA j h1 h2)]
    rw [find_split_comma_deep T (12 + a.length) e 1 (by omega) hcm1 (by omega)]
    rw [hm3]
    rw [find_split_skip_region T e 1 b.length (13 + a.length) (by omega)
      (fun j h1 h2 => hplB j h1 h2)]
    rw [find_split_close T (13 + a.length + b.length) e 1 (by omega) hbr1 (by omega)]
    rw [hm4, show (1:Nat) - 1 = 0 from rfl]
    exact find_split_hit T (14 + a.length + b.length) e (by omega) (Or.inl hcm2)
  have hnoneOuter : find_split T (15 + a.length + b.length + c.length + 1) e 0 = none :=
    find_split_none_of_ge T _ _ 0 (by omega)
  have hpartsOuter : parse_parts (f + 5) lk T 5 e [] σ
      = .ok ([(TypeHintNode.mk (σ.counter + 2) NodeType.TYPING (some [(TypeHintNode.mk σ.counter tyA chA dfA none), (TypeHintNode.mk (σ.counter + 1) tyB chB dfB none)]) (some (NodeDef.str "Union")) none), (TypeHintNode.mk (σ.counter + 3) tyC chC dfC none)], { σ with counter := σ.counter + 4 }) := by
    rw [parse_parts_step_some (f + 4) lk T 5 e [] σ (14 + a.length + b.length)
      (TypeHintNode.mk (σ.counter + 2) NodeType.TYPING (some [(TypeHintNode.mk σ.counter tyA chA dfA none), (TypeHintNode.mk (σ.counter + 1) tyB chB dfB none)]) (some (NodeDef.str "Union")) none) { σ with counter := σ.counter + 3 } hsplit1 hrunInner]
    rw [parse_parts_step_some (f + 3) lk T (14 + a.length + b.length) e
      (append_child [] (TypeHintNode.mk (σ.counter + 2) NodeType.TYPING (some [(TypeHintNode.mk σ.counter tyA chA dfA none), (TypeHintNode.mk (σ.counter + 1) tyB chB dfB none)]) (some (NodeDef.str "Union")) none)) { σ with counter := σ.counter + 3 }
      (15 + a.length + b.length + c.length) (TypeHintNode.mk (σ.counter + 3) tyC chC dfC none)
      { σ with counter := σ.counter + 4 } hsplitC hpartC]
    rw [parse_parts_step_none (f + 2) lk T (15 + a.length + b.length + c.length) e
      _ _ hnoneOuter]
    rfl
  have harg4 : find_open T (strip_leading T 0 e)
      (strip_trailing T (strip_leading T 0 e) e) = some 5 := by
    rw [hsl0, hst0]; exact hfo
  have harg5 : charAt T (strip_trailing T (strip_leading T 0 e) e - 1) = ']' := by
    rw [hsl0, hst0, hm1]; exact hbr2
  have harg6 : parse_parts (f + 5) lk T 5 (strip_trailing T (strip_leading T 0 e) e) [] σ
      = .ok ([(TypeHintNode.mk (σ.counter + 2) NodeType.TYPING (some [(TypeHintNode.mk σ.counter tyA chA dfA none), (TypeHintNode.mk (σ.counter + 1) tyB chB dfB none)]) (some (NodeDef.str "Union")) none), (TypeHintNode.mk (σ.counter + 3) tyC chC dfC none)], { σ with counter := σ.counter + 4 }) := by
    rw [hsl0, hst0]; exact hpartsOuter
  rw [parse_node_step_ok (f + 5) lk T 0 e true σ 5 [(TypeHintNode.mk (σ.counter + 2) NodeType.TYPING (some [(TypeHintNode.mk σ.counter tyA chA dfA none), (TypeHintNode.mk (σ.counter + 1) tyB chB dfB none)]) (some (NodeDef.str "Union")) none), (TypeHintNode.mk (σ.counter + 3) tyC chC dfC none)]
    { σ with counter := σ.counter + 4 } harg4 harg5 harg6]
  rw [hsl0, hst05]
  rw [parse_finish_union lk T 0 5 [(TypeHintNode.mk (σ.counter + 2) NodeType.TYPING (some [(TypeHintNode.mk σ.counter tyA chA dfA none), (TypeHintNode.mk (σ.counter + 1) tyB chB dfB none)]) (some (NodeDef.str "Union")) none), (TypeHintNode.mk (σ.counter + 3) tyC chC dfC none)] true _ hslice05 (by omega) (by simp)]
  rw [flatten_splice (TypeHintNode.mk σ.counter tyA chA dfA none) (TypeHintNode.mk (σ.counter + 1) tyB chB dfB none) (TypeHintNode.mk (σ.counter + 3) tyC chC dfC none) (σ.counter + 2) huC]
  rfl

/-- Symbolic run of the bracket parser on `Union[a,b,c]` under the same
assumptions: one union node over the three arguments in order. -/
theorem C1_run_R (f : Nat) (lk : LookupFn) (a b c : List Char)
    (tyA tyB tyC : NodeType) (chA chB chC : Option (List TypeHintNode))
    (dfA dfB dfC : Option NodeDef) (σ : MState) (T : List Char) (e : Nat)
    (hT : T = cR0 ++ (a ++ (cCm ++ (b ++ (cCm ++ (c ++ cBr))))))
    (he : e = 9 + a.length + b.length + c.length)
    (hna : a ≠ []) (hnb : b ≠ []) (hnc : c ≠ [])
    (hpa : plainChars a) (hpb : plainChars b) (hpc : plainChars c)
    (hma : String.mk a ∉ TYPING_MODULE) (hmb : String.mk b ∉ TYPING_MODULE)
    (hmc : String.mk c ∉ TYPING_MODULE)
    (hlkA : ∀ σ' : MState, lk (String.mk a) σ'
      = .ok (some (TypeHintNode.mk σ'.counter tyA chA dfA none),
          { σ' with counter := σ'.counter + 1 }))
    (hlkB : ∀ σ' : MState, lk (String.mk b) σ'
      = .ok (some (TypeHintNode.mk σ'.counter tyB chB dfB none),
          { σ' with counter := σ'.counter + 1 }))
    (hlkC : ∀ σ' : MState, lk (String.mk c) σ'
      = .ok (some (TypeHintNode.mk σ'.counter tyC chC dfC none),
          { σ' with counter := σ'.counter + 1 }))
    (huA : ¬(tyA = NodeType.TYPING ∧ dfA = some (NodeDef.str "Union")))
    (huB : ¬(tyB = NodeType.TYPING ∧ dfB = some (NodeDef.str "Union")))
    (huC : ¬(tyC = NodeType.TYPING ∧ dfC = some (NodeDef.str "Union"))) :
    parse_node (f + 5) lk T 0 e true σ
      = .ok (some (TypeHintNode.mk (σ.counter + 3) NodeType.TYPING
            (some [(TypeHintNode.mk σ.counter tyA chA dfA none), (TypeHintNode.mk (σ.counter + 1) tyB chB dfB (some (σ.counter + 2))), (TypeHintNode.mk (σ.counter + 2) tyC chC dfC none)])
            (some (NodeDef.str "Union")) none),
          { σ with counter := σ.counter + 4 }) := by
  have lr0 : cR0.length = 6 := rfl
  have lcm : cCm.length = 1 := rfl
  have hm1 : e - 1 = 8 + a.length + b.length + c.length := by omega
  have hm3 : 6 + a.length + 1 = 7 + a.length := by omega
  have hm4 : 7 + a.length + b.length + 1 = 8 + a.length + b.length := by omega
  have hT1 : T = (cR0 ++ a) ++ (cCm ++ (b ++ (cCm ++ (c ++ cBr)))) :=
    hT.trans (List.append_assoc cR0 a _).symm
  have hT2 : T = ((cR0 ++ a) ++ cCm) ++ (b ++ (cCm ++ (c ++ cBr))) :=
    hT1.trans (List.append_assoc (cR0 ++ a) cCm _).symm
  have hT3 : T = (((cR0 ++ a) ++ cCm) ++ b) ++ (cCm ++ (c ++ cBr)) :=
    hT2.trans (List.append_assoc ((cR0 ++ a) ++ cCm) b _).symm
  have hT4 : T = ((((cR0 ++ a) ++ cCm) ++ b) ++ cCm) ++ (c ++ cBr) :=
    hT3.trans (List.append_assoc (((cR0 ++ a) ++ cCm) ++ b) cCm _).symm
  have hT5 : T = (((((cR0 ++ a) ++ cCm) ++ b) ++ cCm) ++ c) ++ cBr :=
    hT4.trans (List.append_assoc ((((cR0 ++ a) ++ cCm) ++ b) ++ cCm) c _).symm
  have l1 : (cR0 ++ a).length = 6 + a.length := by
    simp only [List.length_append, lr0]
  have l2 : ((cR0 ++ a) ++ cCm).length = 7 + a.length := by
    simp only [List.length_append, lr0, lcm]; omega
  have l3 : ((((cR0 ++ a) ++ cCm) ++ b)).length = 7 + a.length + b.length := by
    simp only [List.length_append, lr0, lcm]; omega
  have l4 : (((((cR0 ++ a) ++ cCm) ++ b) ++ cCm)).length = 8 + a.length + b.length := by
    simp only [List.length_append, lr0, lcm]; omega
  have l5 : ((((((cR0 ++ a) ++ cCm) ++ b) ++ cCm) ++ c)).length
      = 8 + a.length + b.length + c.length := by
    simp only [List.length_append, lr0, lcm]; omega
  have hlit : ∀ j, j < 6 → charAt T j = charAt cR0 j := fun j hj => by
    rw [hT]; exact charAt_append_left cR0 _ j (by rw [lr0]; exact hj)
  have hc0 : charAt T 0 = 'U' := by rw [hlit 0 (by omega)]; rfl
  have hc4 : charAt T 4 = 'n' := by rw [hlit 4 (by omega)]; rfl
  have hc5 : charAt T 5 = '[' := by rw [hlit 5 (by omega)]; rfl
  have hlit0 : ∀ j, 0 ≤ j → j < 5 → charAt T j ≠ '[' := by
    intro j _ h2
    rw [hlit j (by omega)]
    interval_cases j <;> decide
  have hregA : ∀ j, 6 ≤ j → j < 6 + a.length → charAt T j ∈ a := fun j h1 h2 =>
    charAt_name_region T cR0 a _ j hT (by rw [lr0]; omega) (by rw [lr0]; omega)
  have hregB : ∀ j, 7 + a.length ≤ j → j < 7 + a.length + b.length →
      charAt T j ∈ b := fun j h1 h2 =>
    charAt_name_region T ((cR0 ++ a) ++ cCm) b _ j hT2 (by rw [l2]; omega)
      (by rw [l2]; omega)
  have hregC : ∀ j, 8 + a.length + b.length ≤ j →
      j < 8 + a.length + b.length + c.length → charAt T j ∈ c := fun j h1 h2 =>
    charAt_name_region T ((((cR0 ++ a) ++ cCm) ++ b) ++ cCm) c _ j hT4
      (by rw [l4]; omega) (by rw [l4]; omega)
  have hplA : ∀ j, 6 ≤ j → j < 6 + a.length →
      charAt T j ≠ '[' ∧ charAt T j ≠ ']' ∧ charAt T j ≠ ',' := fun j h1 h2 =>
    ⟨(hpa _ (hregA j h1 h2)).2.1, (hpa _ (hregA j h1 h2)).2.2.1,
     (hpa _ (hregA j h1 h2)).2.2.2⟩
  have hplB : ∀ j, 7 + a.length ≤ j → j < 7 + a.length + b.length →
      charAt T j ≠ '[' ∧ charAt T j ≠ ']' ∧ charAt T j ≠ ',' := fun j h1 h2 =>
    ⟨(hpb _ (hregB j h1 h2)).2.1, (hpb _ (hregB j h1 h2)).2.2.1,
     (hpb _ (hregB j h1 h2)).2.2.2⟩
  have hplC : ∀ j, 8 + a.length + b.length ≤ j →
      j < 8 + a.length + b.length + c.length →
      charAt T j ≠ '[' ∧ charAt T j ≠ ']' ∧ charAt T j ≠ ',' := fun j h1 h2 =>
    ⟨(hpc _ (hregC j h1 h2)).2.1, (hpc _ (hregC j h1 h2)).2.2.1,
     (hpc _ (hregC j h1 h2)).2.2.2⟩
  have hcm1 : charAt T (6 + a.length) = ',' := by
    rw [charAt_of_concat T (cR0 ++ a) (cCm ++ (b ++ (cCm ++ (c ++ cBr))))
      (6 + a.length) 0 hT1 (by rw [l1]; omega)]
    rfl
  have hcm2 : charAt T (7 + a.length + b.length) = ',' := by
    rw [charAt_of_concat T (((cR0 ++ a) ++ cCm) ++ b) (cCm ++ (c ++ cBr))
      (7 + a.length + b.length) 0 hT3 (by rw [l3]; omega)]
    rfl
  have hbr2 : charAt T (8 + a.length + b.length + c.length) = ']' := by
    rw [charAt_of_concat T (((((cR0 ++ a) ++ cCm) ++ b) ++ cCm) ++ c) cBr
      (8 + a.length + b.length + c.length) 0 hT5 (by rw [l5]; omega)]
    rfl
  have hsl0 : strip_leading T 0 e = 0 :=
    strip_leading_id T 0 e (by rw [hc0]; decide)
  have hst0 : strip_trailing T 0 e = e :=
    strip_trailing_id T 0 e (by rw [hm1, hbr2]; decide)
  have hst05 : strip_trailing T 0 5 = 5 :=
    strip_trailing_id T 0 5 (by rw [show (5:Nat) - 1 = 4 from rfl, hc4]; decide)
  have hfo : find_open T 0 e = some 5 := by
    rw [find_open_skip_region T e 5 0 (by omega) (fun j h1 h2 => hlit0 j h1 h2)]
    exact find_open_hit T 5 e (by omega) hc5
  have hslice05 : slice_str T 0 5 = "Union" := by
    rw [hT, slice_in_prefix cR0 _ 0 5 (by rw [lr0]; omega)]
    rfl
  have hsplitA : find_split T (5 + 1) e 0 = some (6 + a.length) := by
    rw [show (5:Nat) + 1 = 6 from rfl]
    rw [find_split_skip_region T e 0 a.length 6 (by omega)
      (fun j h1 h2 => hplA j h1 h2)]
    exact find_split_hit T (6 + a.length) e (by omega) (Or.inl hcm1)
  have hpartA : parse_node (f + 3) lk T 6 (6 + a.length) false σ
      = .ok (some (TypeHintNode.mk σ.counter tyA chA dfA none), { σ with counter := σ.counter + 1 }) := by
    rw [parse_node_plain_name (f + 2) lk T cR0 a _ 6 (6 + a.length) σ hT
      (by rw [lr0]) rfl hna hpa hma]
    exact hlkA σ
  have hsplitB : find_split T (6 + a.length + 1) e 0
      = some (7 + a.length + b.length) := by
    rw [hm3]
    rw [find_split_skip_region T e 0 b.length (7 + a.length) (by omega)
      (fun j h1 h2 => hplB j h1 h2)]
    exact find_split_hit T (7 + a.length + b.length) e (by omega) (Or.inl hcm2)
  have hpartB : parse_node (f + 2) lk T (6 + a.length + 1)
      (7 + a.length + b.length) false { σ with counter := σ.counter + 1 }
      = .ok (some (TypeHintNode.mk (σ.counter + 1) tyB chB dfB none), { σ with counter := σ.counter + 2 }) := by
    rw [parse_node_plain_name (f + 1) lk T ((cR0 ++ a) ++ cCm) b _ (6 + a.length + 1)
      (7 + a.length + b.length) _ hT2 (by rw [l2]; omega) (by omega) hnb hpb hmb]
    exact hlkB _
  have hsplitC : find_split T (7 + a.length + b.length + 1) e 0
      = some (8 + a.length + b.length + c.length) := by
    rw [hm4]
    rw [find_split_skip_region T e 0 c.length (8 + a.length + b.length) (by omega)
      (fun j h1 h2 => hplC j h1 h2)]
    exact find_split_hit T (8 + a.length + b.length + c.length) e (by omega)
      (Or.inr hbr2)
  have hpartC : parse_node (f + 1) lk T (7 + a.length + b.length + 1)
      (8 + a.length + b.length + c.length) false { σ with counter := σ.counter + 2 }
      = .ok (some (TypeHintNode.mk (σ.counter + 2) tyC chC dfC none), { σ with counter := σ.counter + 3 }) := by
    rw [parse_node_plain_name f lk T ((((cR0 ++ a) ++ cCm) ++ b) ++ cCm) c _
      (7 + a.length + b.length + 1) (8 + a.length + b.length + c.length) _ hT4
      (by rw [l4]; omega) (by omega) hnc hpc hmc]
    exact hlkC _
  have hnoneR : find_split T (8 + a.length + b.length + c.length + 1) e 0 = none :=
    find_split_none_of_ge T _ _ 0 (by omega)
  have hparts : parse_parts (f + 4) lk T 5 e [] σ
      = .ok ([(TypeHintNode.mk σ.counter tyA chA dfA none), (TypeHintNode.mk (σ.counter + 1) tyB chB dfB (some (σ.counter + 2))), (TypeHintNode.mk (σ.counter + 2) tyC chC dfC none)], { σ with counter := σ.counter + 3 }) := by
    rw [parse_parts_step_some (f + 3) lk T 5 e [] σ (6 + a.length) (TypeHintNode.mk σ.counter tyA chA dfA none)
      { σ with counter := σ.counter + 1 } hsplitA hpartA]
    rw [parse_parts_step_some (f + 2) lk T (6 + a.length) e
      (append_child [] (TypeHintNode.mk σ.counter tyA chA dfA none)) { σ with counter := σ.counter + 1 }
      (7 + a.length + b.length) (TypeHintNode.mk (σ.counter + 1) tyB chB dfB none) { σ with counter := σ.counter + 2 }
      hsplitB hpartB]
    rw [parse_parts_step_some (f + 1) lk T (7 + a.length + b.length) e
      (append_child (append_child [] (TypeHintNode.mk σ.counter tyA chA dfA none)) (TypeHintNode.mk (σ.counter + 1) tyB chB dfB none))
      { σ with counter := σ.counter + 2 }
      (8 + a.length + b.length + c.length) (TypeHintNode.mk (σ.counter + 2) tyC chC dfC none)
      { σ with counter := σ.counter + 3 } hsplitC hpartC]
    rw [parse_parts_step_none f lk T (8 + a.length + b.length + c.length) e
      _ _ hnoneR]
    rfl
  have harg4 : find_open T (strip_leading T 0 e)
      (strip_trailing T (strip_leading T 0 e) e) = some 5 := by
    rw [hsl0, hst0]; exact hfo
  have harg5 : charAt T (strip_trailing T (strip_leading T 0 e) e - 1) = ']' := by
    rw [hsl0, hst0, hm1]; exact hbr2
  have harg6 : parse_parts (f + 4) lk T 5 (strip_trailing T (strip_leading T 0 e) e) [] σ
      = .ok ([(TypeHintNode.mk σ.counter tyA chA dfA none), (TypeHintNode.mk (σ.counter + 1) tyB chB dfB (some (σ.counter + 2))), (TypeHintNode.mk (σ.counter + 2) tyC chC dfC none)], { σ with counter := σ.counter + 3 }) := by
    rw [hsl0, hst0]; exact hparts
  rw [parse_node_step_ok (f + 4) lk T 0 e true σ 5 [(TypeHintNode.mk σ.counter tyA chA dfA none), (TypeHintNode.mk (σ.counter + 1) tyB chB dfB (some (σ.counter + 2))), (TypeHintNode.mk (σ.counter + 2) tyC chC dfC none)]
    { σ with counter := σ.counter + 3 } harg4 harg5 harg6]
  rw [hsl0, hst05]
  rw [parse_finish_union lk T 0 5 [(TypeHintNode.mk σ.counter tyA chA dfA none), (TypeHintNode.mk (σ.counter + 1) tyB chB dfB (some (σ.counter + 2))), (TypeHintNode.mk (σ.counter + 2) tyC chC dfC none)] true _ hslice05 (by omega) (by simp)]
  rw [flatten_three (TypeHintNode.mk σ.counter tyA chA dfA none) (TypeHintNode.mk (σ.counter + 1) tyB chB dfB (some (σ.counter + 2))) (TypeHintNode.mk (σ.counter + 2) tyC chC dfC none) huA huB huC]
  rfl

/-- C1: for all plain argument names `a`, `b`, `c` that the resolver maps to
already-built non-union nodes (fresh object id, one allocation, any
children), parsing `Union[Union[a,b],c]` and parsing `Union[a,b,c]` — from
any manager states — both succeed, and the two trees are the same up to node
ids: a single union node whose ordered children are the three flattened
arguments A, B, C with no nested union one level deeper.  (The id-erased
shapes are equal, and equal to the canonical flat-union shape; the raw trees
differ only in the allocation ids, five on the left against four on the
right.) -/
theorem C1_thm (f g : Nat) (lk : LookupFn) (a b c : List Char)
    (tyA tyB tyC : NodeType) (chA chB chC : Option (List TypeHintNode))
    (dfA dfB dfC : Option NodeDef) (σ σ' : MState)
    (hna : a ≠ []) (hnb : b ≠ []) (hnc : c ≠ [])
    (hpa : plainChars a) (hpb : plainChars b) (hpc : plainChars c)
    (hma : String.mk a ∉ TYPING_MODULE) (hmb : String.mk b ∉ TYPING_MODULE)
    (hmc : String.mk c ∉ TYPING_MODULE)
    (hlkA : ∀ σ0 : MState, lk (String.mk a) σ0
      = .ok (some (TypeHintNode.mk σ0.counter tyA chA dfA none),
          { σ0 with counter := σ0.counter + 1 }))
    (hlkB : ∀ σ0 : MState, lk (String.mk b) σ0
      = .ok (some (TypeHintNode.mk σ0.counter tyB chB dfB none),
          { σ0 with counter := σ0.counter + 1 }))
    (hlkC : ∀ σ0 : MState, lk (String.mk c) σ0
      = .ok (some (TypeHintNode.mk σ0.counter tyC chC dfC none),
          { σ0 with counter := σ0.counter + 1 }))
    (huA : ¬(tyA = NodeType.TYPING ∧ dfA = some (NodeDef.str "Union")))
    (huB : ¬(tyB = NodeType.TYPING ∧ dfB = some (NodeDef.str "Union")))
    (huC : ¬(tyC = NodeType.TYPING ∧ dfC = some (NodeDef.str "Union"))) :
    parse_node (f + 6) lk (cL0 ++ (a ++ (cCm ++ (b ++ (cBC ++ (c ++ cBr)))))) 0
        (16 + a.length + b.length + c.length) true σ
      = .ok (some (TypeHintNode.mk (σ.counter + 4) NodeType.TYPING
            (some [(TypeHintNode.mk σ.counter tyA chA dfA none), (TypeHintNode.mk (σ.counter + 1) tyB chB dfB (some (σ.counter + 3))), (TypeHintNode.mk (σ.counter + 3) tyC chC dfC none)])
            (some (NodeDef.str "Union")) none),
          { σ with counter := σ.counter + 5 })
    ∧ parse_node (g + 5) lk (cR0 ++ (a ++ (cCm ++ (b ++ (cCm ++ (c ++ cBr)))))) 0
        (9 + a.length + b.length + c.length) true σ'
      = .ok (some (TypeHintNode.mk (σ'.counter + 3) NodeType.TYPING
            (some [(TypeHintNode.mk σ'.counter tyA chA dfA none), (TypeHintNode.mk (σ'.counter + 1) tyB chB dfB (some (σ'.counter + 2))), (TypeHintNode.mk (σ'.counter + 2) tyC chC dfC none)])
            (some (NodeDef.str "Union")) none),
          { σ' with counter := σ'.counter + 4 })
    ∧ shape_of (TypeHintNode.mk (σ.counter + 4) NodeType.TYPING
          (some [(TypeHintNode.mk σ.counter tyA chA dfA none), (TypeHintNode.mk (σ.counter + 1) tyB chB dfB (some (σ.counter + 3))), (TypeHintNode.mk (σ.counter + 3) tyC chC dfC none)])
          (some (NodeDef.str "Union")) none)
      = shape_of (TypeHintNode.mk (σ'.counter + 3) NodeType.TYPING
          (some [(TypeHintNode.mk σ'.counter tyA chA dfA none), (TypeHintNode.mk (σ'.counter + 1) tyB chB dfB (some (σ'.counter + 2))), (TypeHintNode.mk (σ'.counter + 2) tyC chC dfC none)])
          (some (NodeDef.str "Union")) none)
    ∧ shape_of (TypeHintNode.mk (σ.counter + 4) NodeType.TYPING
          (some [(TypeHintNode.mk σ.counter tyA chA dfA none), (TypeHintNode.mk (σ.counter + 1) tyB chB dfB (some (σ.counter + 3))), (TypeHintNode.mk (σ.counter + 3) tyC chC dfC none)])
          (some (NodeDef.str "Union")) none)
      = NodeShape.mk NodeType.TYPING
          (some [shape_of (TypeHintNode.mk 0 tyA chA dfA none),
                 shape_of (TypeHintNode.mk 0 tyB chB dfB (some 0)),
                 shape_of (TypeHintNode.mk 0 tyC chC dfC none)])
          (some (NodeDef.str "Union")) false :=
  ⟨C1_run_L f lk a b c tyA tyB tyC chA chB chC dfA dfB dfC σ _ _ rfl rfl
      hna hnb hnc hpa hpb hpc hma hmb hmc hlkA hlkB hlkC huA huB huC,
   C1_run_R g lk a b c tyA tyB tyC chA chB chC dfA dfB dfC σ' _ _ rfl rfl
      hna hnb hnc hpa hpb hpc hma hmb hmc hlkA hlkB hlkC huA huB huC,
   rfl, rfl⟩

/-- A concrete resolver mapping every name to a fresh unresolved node. -/
def lkW : LookupFn := fun nm σ =>
  .ok (some (TypeHintNode.mk σ.counter NodeType.OTHER none (some (NodeDef.str nm)) none),
    { σ with counter := σ.counter + 1 })

/-- C1 (witness): the statement at the names `x`, `y`, `z` under the
concrete resolver, from a fresh manager. -/
theorem C1_witness :
    parse_node 6 lkW (cL0 ++ ("x".data ++ (cCm ++ ("y".data ++ (cBC ++ ("z".data ++ cBr)))))) 0
        19 true emptyMState
      = .ok (some (TypeHintNode.mk 4 NodeType.TYPING
            (some [TypeHintNode.mk 0 NodeType.OTHER none (some (NodeDef.str "x")) none,
                   TypeHintNode.mk 1 NodeType.OTHER none (some (NodeDef.str "y")) (some 3),
                   TypeHintNode.mk 3 NodeType.OTHER none (some (NodeDef.str "z")) none])
            (some (NodeDef.str "Union")) none),
          { emptyMState with counter := 5 })
    ∧ parse_node 5 lkW (cR0 ++ ("x".data ++ (cCm ++ ("y".data ++ (cCm ++ ("z".data ++ cBr)))))) 0
        12 true emptyMState
      = .ok (some (TypeHintNode.mk 3 NodeType.TYPING
            (some [TypeHintNode.mk 0 NodeType.OTHER none (some (NodeDef.str "x")) none,
                   TypeHintNode.mk 1 NodeType.OTHER none (some (NodeDef.str "y")) (some 2),
                   TypeHintNode.mk 2 NodeType.OTHER none (some (NodeDef.str "z")) none])
            (some (NodeDef.str "Union")) none),
          { emptyMState with counter := 4 })
    ∧ shape_of (TypeHintNode.mk 4 NodeType.TYPING
          (some [TypeHintNode.mk 0 NodeType.OTHER none (some (NodeDef.str "x")) none,
                 TypeHintNode.mk 1 NodeType.OTHER none (some (NodeDef.str "y")) (some 3),
                 TypeHintNode.mk 3 NodeType.OTHER none (some (NodeDef.str "z")) none])
          (some (NodeDef.str "Union")) none)
      = shape_of (TypeHintNode.mk 3 NodeType.TYPING
          (some [TypeHintNode.mk 0 NodeType.OTHER none (some (NodeDef.str "x")) none,
                 TypeHintNode.mk 1 NodeType.OTHER none (some (NodeDef.str "y")) (some 2),
                 TypeHintNode.mk 2 NodeType.OTHER none (some (NodeDef.str "z")) none])
          (some (NodeDef.str "Union")) none)
    ∧ shape_of (TypeHintNode.mk 4 NodeType.TYPING
          (some [TypeHintNode.mk 0 NodeType.OTHER none (some (NodeDef.str "x")) none,
                 TypeHintNode.mk 1 NodeType.OTHER none (some (NodeDef.str "y")) (some 3),
                 TypeHintNode.mk 3 NodeType.OTHER none (some (NodeDef.str "z")) none])
          (some (NodeDef.str "Union")) none)
      = NodeShape.mk NodeType.TYPING
          (some [shape_of (TypeHintNode.mk 0 NodeType.OTHER none (some (NodeDef.str "x")) none),
                 shape_of (TypeHintNode.mk 0 NodeType.OTHER none (some (NodeDef.str "y")) (some 0)),
                 shape_of (TypeHintNode.mk 0 NodeType.OTHER none (some (NodeDef.str "z")) none)])
          (some (NodeDef.str "Union")) false :=
  C1_thm 0 0 lkW "x".data "y".data "z".data NodeType.OTHER NodeType.OTHER NodeType.OTHER
    none none none (some (NodeDef.str "x")) (some (NodeDef.str "y")) (some (NodeDef.str "z"))
    emptyMState emptyMState
    (by decide) (by decide) (by decide)
    (by unfold plainChars; decide) (by unfold plainChars; decide)
    (by unfold plainChars; decide)
    (by decide) (by decide) (by decide)
    (fun σ0 => rfl) (fun σ0 => rfl) (fun σ0 => rfl)
    (by decide) (by decide) (by decide)
